import Mathlib

/-!
# Verification of the DistrictBuilder redistricting engine
(`src/django/publicmapping/redistricting/models.py`)

Shallow embedding of the versioned districting engine.  Geometry is
modelled abstractly: a planar region is a finite list of "atoms"
(indivisible cells of the plane, `List Nat`); union / difference /
intersection of regions become list operations; a geometry object keeps
the GEOS type structure (Point, LineString, LinearRing, Polygon,
MultiPolygon, GeometryCollection) plus its SRID, because the code
dispatches on `geom_type` and GEOS emptiness.  The geometry collections
arising in this code never nest (they are built from unit or district
multipolygons, or returned by kernel set operations), so the model
restricts collection members to simple (non-collection) geometries.
Geometry-kernel set operations can raise `GEOSException` in the source,
so the kernel is a record of operations returning `Option` (`none` = the
kernel threw); theorems quantify over the kernel, and concrete
executable kernels are supplied for witnesses.

The relational store (Django ORM) is embedded as explicit state:
`PlanState` holds the district rows, computed characteristics, comments,
tags and the plan fields, and every mutating method is a function
`PlanState → Except (KErr × PlanState) (α × PlanState)`; an error
carries the state at raise time.  `@transaction.commit_on_success` is
embedded by a wrapper that discards the error-time state and restores
the initial one.
-/

/-- GEOS exceptions and the Python exceptions the embedded code can
raise.  `geos` is `GEOSException`, `doesNotExist` is the ORM
`DoesNotExist` from `get()`, `typeErr`/`attrErr`/`indexErr` are the
corresponding Python errors on `None` misuse and empty indexing, and
`validationErr` is the `ValidationError` of the `set_district_id`
pre-save signal (models.py:2084). -/
inductive KErr where
  | geos
  | doesNotExist
  | typeErr
  | attrErr
  | indexErr
  | validationErr
deriving Repr, DecidableEq

/-- A simple (non-collection) GEOS geometry over the atom model.
Polygonal content is carried as atom lists; non-areal types carry no
atoms.  Every constructor carries the (optional) SRID. -/
inductive SGeom where
  | point (srid : Option Int)
  | lineString (srid : Option Int)
  | linearRing (srid : Option Int) (atoms : List Nat)
  | polygon (srid : Option Int) (atoms : List Nat)
  | multiPolygon (srid : Option Int) (polys : List (List Nat))
deriving Repr, DecidableEq

/-- A GEOS geometry: either simple, or a geometry collection of simple
geometries. -/
inductive Geom where
  | simple (sg : SGeom)
  | geomCollection (srid : Option Int) (items : List SGeom)
deriving Repr, DecidableEq

namespace SGeom

/-- The `srid` property of a simple geometry. -/
def srid : SGeom → Option Int
  | point s => s
  | lineString s => s
  | linearRing s _ => s
  | polygon s _ => s
  | multiPolygon s _ => s

/-- GEOS `empty` for a simple geometry: a point or line string (with
coordinates) is non-empty; an areal geometry is empty iff it has no
atoms; a multipolygon is empty iff all members are empty. -/
def isEmpty : SGeom → Bool
  | point _ => false
  | lineString _ => false
  | linearRing _ a => a.isEmpty
  | polygon _ a => a.isEmpty
  | multiPolygon _ ps => ps.all List.isEmpty

/-- All atoms (areal content) of a simple geometry. -/
def atoms : SGeom → List Nat
  | point _ => []
  | lineString _ => []
  | linearRing _ a => a
  | polygon _ a => a
  | multiPolygon _ ps => ps.flatten

end SGeom

namespace Geom

/-- The `srid` property of a geometry. -/
def srid : Geom → Option Int
  | simple sg => sg.srid
  | geomCollection s _ => s

/-- GEOS `empty`: a collection is empty iff all of its members are. -/
def isEmpty : Geom → Bool
  | simple sg => sg.isEmpty
  | geomCollection _ items => items.all SGeom.isEmpty

/-- Python truthiness of a GeoDjango geometry: the container types
define `__len__`, so a container with no members (rings, for a polygon)
is falsy; points and line strings with coordinates are truthy. -/
def pyFalsy : Geom → Bool
  | simple (SGeom.point _) => false
  | simple (SGeom.lineString _) => false
  | simple (SGeom.linearRing _ a) => a.isEmpty
  | simple (SGeom.polygon _ a) => a.isEmpty
  | simple (SGeom.multiPolygon _ ps) => ps.isEmpty
  | geomCollection _ items => items.isEmpty

/-- Is this geometry a `MultiPolygon`? -/
def isMultiPolygon : Geom → Bool
  | simple (SGeom.multiPolygon _ _) => true
  | _ => false

/-- All atoms (areal content) of a geometry, used for the spatial
predicates of the store. -/
def atoms : Geom → List Nat
  | simple sg => sg.atoms
  | geomCollection _ items => items.flatMap SGeom.atoms

end Geom

/-- Python truthiness of an optional geometry (`None` and empty
containers are falsy). -/
def optFalsy : Option Geom → Bool
  | none => true
  | some g => g.pyFalsy

/-- `empty_geom(srid)` (models.py:2194): an empty MultiPolygon with the
given spatial reference. -/
def empty_geom (srid : Option Int) : Geom := Geom.simple (SGeom.multiPolygon srid [])

/-- `cascaded_union` of a MultiPolygon: the kernel unions the member
polygons into one region; in the atom model this is a single polygon
holding the merged atoms.  (On other geometry types — never reached via
`enforce_multi` — the geometry is returned unchanged.) -/
def cascadedUnion : Geom → Geom
  | Geom.simple (SGeom.multiPolygon s ps) =>
      Geom.simple (SGeom.polygon s (ps.foldr List.union []))
  | g => g

/-- Termination measure for `enforce_multi`: `cascaded_union` of a
MultiPolygon is a Polygon (measure 0 < 1), and a collection (measure 2)
dominates both its members and the intermediate MultiPolygon built from
them. -/
def emSize : Geom → Nat
  | Geom.geomCollection _ _ => 2
  | Geom.simple (SGeom.multiPolygon _ _) => 1
  | Geom.simple _ => 0

/-- `enforce_multi(geom, collapse)` (models.py:2206): coerce any
geometry (or `None`) to a MultiPolygon.  Mirrors the source exactly:
start from `MultiPolygon([])`; on `None` return it; otherwise adopt the
input SRID; an empty geometry gives the empty MultiPolygon; a
MultiPolygon is passed through (or collapsed through `cascaded_union`
when `collapse`); a Polygon is appended; a GeometryCollection has each
member passed through `enforce_multi` and the member polygons appended
(collapsing at the end when `collapse`); any other type falls through to
the empty MultiPolygon. -/
def enforce_multi (geom : Option Geom) (collapse : Bool := false) : Geom :=
  match geom with
  | none => Geom.simple (SGeom.multiPolygon none [])
  | some g =>
    if g.isEmpty then Geom.simple (SGeom.multiPolygon g.srid [])
    else
      match g with
      | Geom.simple (SGeom.multiPolygon s ps) =>
        if collapse then
          enforce_multi (some (cascadedUnion (Geom.simple (SGeom.multiPolygon s ps)))) false
        else Geom.simple (SGeom.multiPolygon s ps)
      | Geom.simple (SGeom.polygon s a) => Geom.simple (SGeom.multiPolygon s [a])
      | Geom.geomCollection s items =>
        let comps : List (List Nat) :=
          items.flatMap (fun item =>
            match enforce_multi (some (Geom.simple item)) false with
            | Geom.simple (SGeom.multiPolygon _ qs) => qs
            | _ => [])
        if collapse then
          enforce_multi (some (Geom.simple (SGeom.multiPolygon s comps))) true
        else Geom.simple (SGeom.multiPolygon s comps)
      | g' => Geom.simple (SGeom.multiPolygon g'.srid [])
termination_by
  match geom with
  | none => 0
  | some g => emSize g
decreasing_by
  · simp [cascadedUnion, emSize]
  · cases item <;> simp [emSize]
  · simp [emSize]

/-- `Subject` (models.py:52): only the fields the verified code paths
read.  `sortKey` is `sort_key`, the default ordering of the model
(`Meta.ordering = ['sort_key']`); `percentage_denominator` holds the id
of the denominator subject, if any. -/
structure SubjectRec where
  id : Nat
  sortKey : Nat
  percentage_denominator : Option Nat
deriving Repr, DecidableEq

/-- `Geounit` (models.py:329): id, geolevel, full geometry (as atoms),
centroid (an atom), and parent link `child`. -/
structure GeounitRec where
  id : Nat
  geolevel : Nat
  atoms : List Nat
  center : Nat
  child : Option Nat
deriving Repr, DecidableEq

/-- The read-only catalog: geounits, subjects, characteristics
(`(geounit id, subject id, number)`), the geolevel hierarchy of the
legislative body from coarsest to finest (`get_geolevels()`), the
body's `max_districts`, and the `member` name format (the `%s`
substitution of `legislative_body.member` is modelled as appending the
district number). -/
structure Catalog where
  units : List GeounitRec
  subjects : List SubjectRec
  characteristics : List (Nat × Nat × Rat)
  levels : List Nat
  maxDistricts : Nat
  member : String
deriving Repr

/-- The geometry kernel (GEOS).  Set operations may throw
`GEOSException` (`none`); predicates are total.  `relateTstar` is
`relate_pattern(· , 'T********')`; `withinExteriorRing a b` is
`A.within(Polygon(B.exterior_ring))` on atom lists, and
`touchesExteriorRing` is `A.touches(Polygon(B.exterior_ring))`. -/
structure GeoKernel where
  union2 : Geom → Geom → Option Geom
  difference : Geom → Geom → Option Geom
  intersection : Geom → Geom → Option Geom
  buffer0 : Geom → Geom
  relateTstar : Geom → Geom → Bool
  intersectsG : Geom → Geom → Bool
  withinExteriorRing : List Nat → List Nat → Bool
  touchesExteriorRing : List Nat → List Nat → Bool

/-- Django settings used by the engine. -/
structure Settings where
  max_undos_during_edit : Nat
  fix_unassigned_min_percent : Nat
  fix_unassigned_comparator_subject : Nat
deriving Repr, DecidableEq

/-- A `District` row (models.py:1720): primary key `id`, logical
`district_id` (0 is Unassigned), name, version, lock flag, geometry and
simplified geometry.  `num_members` is not modelled (no verified claim
reads it). -/
structure DistrictRow where
  id : Nat
  district_id : Nat
  name : String
  version : Nat
  is_locked : Bool
  geom : Option Geom
  simple : Option Geom
deriving Repr, DecidableEq

/-- A `ComputedCharacteristic` row (models.py:2008), keyed by the
district row primary key and the subject id.  `percentage` is nullable
in the schema. -/
structure CompChar where
  district : Nat
  subject : Nat
  number : Rat
  percentage : Option Rat
deriving Repr, DecidableEq

/-- The mutable store for one plan: its district rows, computed
characteristics, comments and tagged items (each represented by the
primary key of the district row it is bound to), and the plan fields
`version`, `min_version`, `is_valid`.  `nextPk` is the next district
row primary key the store will allocate. -/
structure PlanState where
  districts : List DistrictRow
  computed : List CompChar
  comments : List Nat
  tags : List Nat
  version : Nat
  min_version : Nat
  is_valid : Bool
  nextPk : Nat
deriving Repr, DecidableEq

/-- `Plan.get_districts_at_version` (models.py:1298): for each
`district_id`, the row with the greatest version `≤ version`.  The
source additionally sorts the result by display name (`sortKey`); that
ordering is presentational and no verified claim depends on it, so the
embedding returns rows in store order. -/
def districtsAtVersion (st : PlanState) (v : Nat) : List DistrictRow :=
  st.districts.filter (fun r =>
    r.version ≤ v &&
    st.districts.all (fun s =>
      s.district_id != r.district_id || decide (v < s.version) || s.version ≤ r.version))

/-- `District.is_latest_version` (models.py:1797) for a row of a plan:
the row's version is the maximum stored version for its
`district_id`. -/
def isLatestVersion (st : PlanState) (r : DistrictRow) : Bool :=
  st.districts.all (fun s => s.district_id != r.district_id || s.version ≤ r.version)

/-- Delete the given district rows and cascade-delete the comments and
tagged items bound to their primary keys (models.py:748-758). -/
def deleteRows (st : PlanState) (doomed : List DistrictRow) : PlanState :=
  let pks := doomed.map (fun r => r.id)
  { st with
    districts := st.districts.filter (fun r => !(pks.contains r.id)),
    comments := st.comments.filter (fun c => !(pks.contains c)),
    tags := st.tags.filter (fun t => !(pks.contains t)) }

/-- `Plan.purge(before, after)` (models.py:707).  With `before = V`:
for each district visible at `V`, delete the rows of that `district_id`
with version below the visible row's version (the initial
`Q(plan__isnull=True)` disjunct matches no row of this plan).  With
`after = V`: delete every row with version strictly greater than `V`.
`before` wins when both are given; `before = 0` is a no-op. -/
def purge (st : PlanState) (before : Option Nat) (after : Option Nat) : PlanState :=
  if before = none ∧ after = none then st
  else
    match before with
    | some b =>
      if b = 0 then st
      else
        let ds := districtsAtVersion st b
        deleteRows st (st.districts.filter (fun r =>
          ds.any (fun d => d.district_id == r.district_id && r.version < d.version)))
    | none =>
      match after with
      | some a => deleteRows st (st.districts.filter (fun r => a < r.version))
      | none => st

/-- The distinct stored district versions of the plan, in descending
order (models.py:696: `order_by('-version').values('version')
.annotate(count=...)`, a grouped query). -/
def storedVersionsDesc (st : PlanState) : List Nat :=
  List.insertionSort (fun a b => b ≤ a) (st.districts.map (fun r => r.version)).dedup

/-- `Plan.get_nth_previous_version(steps)` (models.py:676): the
`steps`-th distinct stored version counting down from the newest, or 0
when the history is shorter than `steps`. -/
def get_nth_previous_version (st : PlanState) (steps : Nat) : Nat :=
  let versions := storedVersionsDesc st
  if h : steps < versions.length then versions.get ⟨steps, h⟩ else 0

/-- `Plan.purge_beyond_nth_step(steps)` (models.py:761); the `steps ≥ 0`
guard of the source is vacuous for a natural number. -/
def purge_beyond_nth_step (st : PlanState) (steps : Nat) : PlanState :=
  let prever := get_nth_previous_version st steps
  if st.min_version < prever then
    { purge st (some prever) none with min_version := prever }
  else st

/-- The spatial predicate `st_within(geom, boundary)` of the store, on
atom lists (PostGIS: an empty geometry is within nothing). -/
def stWithin (a b : List Nat) : Bool := !a.isEmpty && a.all (fun x => b.contains x)

/-- The spatial predicate `st_intersects` on atom lists. -/
def atomsIntersect (a b : List Nat) : Bool := a.any (fun x => b.contains x)

/-- The full geometry of a geounit as a GEOS MultiPolygon (units are
stored with SRID 3785). -/
def unitGeom (u : GeounitRec) : SGeom := SGeom.multiPolygon (some 3785) [u.atoms]

/-- The store aggregate `collect()` over a set of geounits: `None` for
an empty query set, otherwise a GeometryCollection of the unit
geometries. -/
def collectUnits (us : List GeounitRec) : Option Geom :=
  if us.isEmpty then none
  else some (Geom.geomCollection (some 3785) (us.map unitGeom))

/-- The store aggregate `unionagg()` over the geounits with the given
ids: `None` for an empty query set, otherwise the union of the unit
geometries as a MultiPolygon. -/
def unionaggUnits (cat : Catalog) (ids : List Nat) : Option Geom :=
  let us := cat.units.filter (fun u => ids.contains u.id)
  if us.isEmpty then none
  else some (Geom.simple (SGeom.multiPolygon (some 3785)
    [us.foldr (fun u acc => u.atoms.union acc) []]))

/-- The per-level loop of `Geounit.get_mixed_geounits`
(models.py:405-524).  Arguments after `base_geolevel` are the loop
state: the remaining levels, the (possibly replaced) `boundary`, the
`selection` (set at the primary-search level), the collected `units`,
and the `searching` flag.  The primary-search step queries the selected
ids against the boundary (by geometry at non-base levels, by centroid
at the base level) and returns immediately at the base level.  A
descent step recomputes the remainder; the `selection.difference(union)`
call (models.py:472) is *outside* the `try`, so a kernel failure there
propagates, while failures inside the `try` blocks (models.py:478-496)
yield an empty remainder for the step. -/
def mixedLoop (k : GeoKernel) (cat : Catalog) (geounit_ids : List Nat) (geolevel : Nat)
    (inside : Bool) (base_geolevel : Nat) :
    List Nat → Option Geom → Option Geom → List GeounitRec → Bool →
    Except KErr (List GeounitRec)
  | [], _, _, units, _ => .ok units
  | level :: rest, boundary, selection, units, searching =>
    if level = geolevel then
      let selUnits := cat.units.filter (fun u => geounit_ids.contains u.id)
      let sel := enforce_multi (collectUnits selUnits) true
      let b : Geom :=
        match boundary with
        | none => empty_geom sel.srid
        | some b0 => if b0.pyFalsy then empty_geom sel.srid else b0
      let rows := cat.units.filter (fun u =>
        geounit_ids.contains u.id &&
        (if inside then
          (if level ≠ base_geolevel then stWithin u.atoms b.atoms
           else b.atoms.contains u.center)
         else
          (if level ≠ base_geolevel then !(atomsIntersect u.atoms b.atoms)
           else !(b.atoms.contains u.center))))
      let units' := units ++ rows
      if level = base_geolevel then .ok units'
      else mixedLoop k cat geounit_ids geolevel inside base_geolevel rest (some b) (some sel) units' true
    else if searching then
      match selection, boundary with
      | some sel, some b =>
        let unionOpt : Option Geom :=
          if units.isEmpty then none
          else some (enforce_multi (some (Geom.geomCollection (some 3785) (units.map unitGeom))) true)
        let intersectsRes : Except KErr Geom :=
          match unionOpt with
          | none => .ok sel
          | some u =>
            match k.difference sel u with
            | some d => .ok d
            | none => .error .geos
        match intersectsRes with
        | .error e => .error e
        | .ok inter =>
          let remainder0 : Geom :=
            if inside then
              match k.intersection b inter with
              | some r => r
              | none => empty_geom b.srid
            else
              match k.difference sel b with
              | none => empty_geom b.srid
              | some r1 =>
                match k.intersection r1 inter with
                | none => empty_geom b.srid
                | some r => r
          let remainder := enforce_multi (some remainder0) false
          let units' :=
            if !remainder.isEmpty then
              units ++ cat.units.filter (fun u =>
                u.geolevel == level &&
                (if level = base_geolevel then remainder.atoms.contains u.center
                 else stWithin u.atoms remainder.atoms))
            else units
          mixedLoop k cat geounit_ids geolevel inside base_geolevel rest boundary selection units' searching
      | _, _ => .error .attrErr
    else
      mixedLoop k cat geounit_ids geolevel inside base_geolevel rest boundary selection units searching

/-- `Geounit.get_mixed_geounits(geounit_ids, legislative_body, geolevel,
boundary, inside)` (models.py:368): the multipass spatial search for the
largest geounits inside or outside a boundary.  A falsy boundary
(`None`, or an empty geometry, which is falsy in GeoDjango) together
with `inside` returns no units at once; an empty geolevel hierarchy
would make `levels[len(levels)-1]` raise. -/
def get_mixed_geounits (k : GeoKernel) (cat : Catalog) (geounit_ids : List Nat)
    (geolevel : Nat) (boundary : Option Geom) (inside : Bool) :
    Except KErr (List GeounitRec) :=
  if optFalsy boundary && inside then .ok []
  else
    match cat.levels.getLast? with
    | none => .error .indexErr
    | some base =>
      mixedLoop k cat geounit_ids geolevel inside base cat.levels boundary none [] false

/-- The ordering key that `Subject.objects.order_by
('-percentage_denominator')` (models.py:1834) sorts by.  Ordering by a
foreign key expands to the related model's default ordering
(`Subject.Meta.ordering = ['sort_key']`), so the query orders by the
*denominator's* `sort_key`, descending; rows whose denominator is NULL
(no denominator, or a dangling reference through the left outer join)
sort first, PostgreSQL's NULLS FIRST default for descending order. -/
def denomOrderKey (cat : Catalog) (s : SubjectRec) : Option Nat :=
  s.percentage_denominator.bind (fun did =>
    (cat.subjects.find? (fun t => t.id == did)).map (fun t => t.sortKey))

/-- `a` sorts no later than `b` under the `'-percentage_denominator'`
ordering: NULL keys first, then denominator sort keys descending. -/
def deltaOrderBefore (cat : Catalog) (a b : SubjectRec) : Bool :=
  match denomOrderKey cat a, denomOrderKey cat b with
  | none, _ => true
  | some _, none => false
  | some x, some y => y ≤ x

/-- The subject iteration order of `delta_stats` (models.py:1834) and
`combine_districts` (models.py:1670). -/
def orderedSubjects (cat : Catalog) : List SubjectRec :=
  List.insertionSort (fun a b => deltaOrderBefore cat a b = true) cat.subjects

/-- `Characteristic.objects.filter(geounit__in=geounits, subject=s)
.aggregate(Sum('number'))` (models.py:1840): `none` when no
characteristic row matches, otherwise the sum. -/
def aggregateFor (cat : Catalog) (unitIds : List Nat) (subj : Nat) : Option Rat :=
  let rows := cat.characteristics.filter (fun c => unitIds.contains c.1 && c.2.1 == subj)
  if rows.isEmpty then none else some ((rows.map (fun c => c.2.2)).sum)

/-- Look up the `ComputedCharacteristic` row for a district row and
subject. -/
def findComputed (comp : List CompChar) (dpk subj : Nat) : Option CompChar :=
  comp.find? (fun c => c.subject == subj && c.district == dpk)

/-- `computed.save()`: replace the row for `(subject, district)`, or
insert it (the `get_or_create` + `save` pair of the source). -/
def upsertComputed (comp : List CompChar) (c : CompChar) : List CompChar :=
  if (findComputed comp c.district c.subject).isSome then
    comp.map (fun d => if d.subject == c.subject && d.district == c.district then c else d)
  else comp ++ [c]

/-- One subject's `get_or_create` plus add/subtract of the aggregate
(models.py:1843-1852): the computed row for the subject (a fresh zero
row when none exists) with the aggregate added or removed. -/
def deltaRow (comp : List CompChar) (dpk : Nat) (combine : Bool) (sid : Nat)
    (aggregate : Rat) : CompChar :=
  let c0 : CompChar :=
    match findComputed comp dpk sid with
    | some c => c
    | none => { district := dpk, subject := sid, number := 0, percentage := none }
  { c0 with number := if combine then c0.number + aggregate else c0.number - aggregate }

/-- The percentage update of one subject (models.py:1856-1862):
`percentage = number / denom.number` when the denominator's computed
number is positive, else 0. -/
def deltaPct (c1 : CompChar) (denom : CompChar) : CompChar :=
  if 0 < denom.number then { c1 with percentage := some (c1.number / denom.number) }
  else { c1 with percentage := some 0 }

/-- The body of the `delta_stats` subject loop (models.py:1838-1867)
for one subject: skip subjects with no aggregate; add or subtract the
aggregate; for a percentage subject, read the denominator's computed
row (the ORM `get` raises `DoesNotExist` when it is missing) and set
`percentage = number / denom.number` when `denom.number > 0`, else
0. -/
def deltaStatsGo (cat : Catalog) (dpk : Nat) (unitIds : List Nat) (combine : Bool) :
    List SubjectRec → Bool → List CompChar → Except (KErr × List CompChar) (Bool × List CompChar)
  | [], changed, comp => .ok (changed, comp)
  | s :: rest, changed, comp =>
    match aggregateFor cat unitIds s.id with
    | none => deltaStatsGo cat dpk unitIds combine rest changed comp
    | some aggregate =>
      let c1 : CompChar := deltaRow comp dpk combine s.id aggregate
      match s.percentage_denominator with
      | none => deltaStatsGo cat dpk unitIds combine rest true (upsertComputed comp c1)
      | some did =>
        match findComputed comp dpk did with
        | none => .error (.doesNotExist, comp)
        | some denom =>
          deltaStatsGo cat dpk unitIds combine rest true
            (upsertComputed comp (deltaPct c1 denom))

/-- `District.delta_stats(geounits, combine)` (models.py:1817): update
the computed characteristics of the district row `dpk` incrementally
over the given geounits.  On an ORM error the partial computed table is
returned with the error (the method itself opens no transaction). -/
def delta_stats (cat : Catalog) (dpk : Nat) (geounits : List GeounitRec) (combine : Bool)
    (comp : List CompChar) : Except (KErr × List CompChar) (Bool × List CompChar) :=
  deltaStatsGo cat dpk (geounits.map (fun u => u.id)) combine (orderedSubjects cat) false comp

/-- `District.clone_relations_from(origin)` (models.py:1902): copy the
computed characteristics, comments and tagged items bound to the row
`fromPk` onto the row `toPk`. -/
def cloneRelationsFrom (st : PlanState) (fromPk toPk : Nat) : PlanState :=
  { st with
    computed := st.computed ++
      (st.computed.filter (fun c => c.district == fromPk)).map (fun c => { c with district := toPk }),
    comments := st.comments ++ (st.comments.filter (fun c => c == fromPk)).map (fun _ => toPk),
    tags := st.tags ++ (st.tags.filter (fun t => t == fromPk)).map (fun _ => toPk) }

/-- `District.simplify()` (models.py:1964) writes the per-geolevel
simplified geometry collection of `geom` into `simple`.  The
simplification tolerance machinery of the kernel is abstracted: the
model stores the geometry itself (no verified claim reads `simple`). -/
def simplifyRow (r : DistrictRow) : DistrictRow := { r with simple := r.geom }

/-- Append a fresh district row (Python `save()` on a row whose pk was
cleared): the store assigns the next primary key. -/
def insertRow (st : PlanState) (r : DistrictRow) : PlanState × Nat :=
  ({ st with districts := st.districts ++ [{ r with id := st.nextPk }],
             nextPk := st.nextPk + 1 }, st.nextPk)

/-- The members of a geometry as a flat list of simple geometries (the
store aggregate `collect()` flattens district multipolygons this
way). -/
def geomMembers : Geom → List SGeom
  | Geom.simple sg => [sg]
  | Geom.geomCollection _ its => its

/-- The loop of `add_geounits` over the districts visible at the base
version (models.py:854-917).  The target district is only remembered;
a district with no geometry is skipped; a district that does not
interior-intersect the incremental geometry is cloned forward when it
is not the latest stored version of its `district_id`; otherwise the
mixed geounits inside the district are computed, the incremental
geometry is subtracted (a kernel failure propagates and aborts the
call), and a new simplified row at `v0 + 1` takes the cloned relations
and the subtracted statistics.  `v0` is the plan version at entry
(`self.version`), which the loop does not change. -/
def addGeounitsLoop (k : GeoKernel) (cat : Catalog) (geounit_ids : List Nat)
    (geolevel districtid : Nat) (incremental : Option Geom) (v0 : Nat) :
    List DistrictRow → Bool → Option DistrictRow → PlanState →
    Except (KErr × PlanState) (Bool × Option DistrictRow × PlanState)
  | [], fixed, target, st => .ok (fixed, target, st)
  | d :: rest, fixed, target, st =>
    if d.district_id = districtid then
      addGeounitsLoop k cat geounit_ids geolevel districtid incremental v0 rest fixed (some d) st
    else
      match d.geom with
      | none => addGeounitsLoop k cat geounit_ids geolevel districtid incremental v0 rest fixed target st
      | some dg =>
        match incremental with
        | none => .error (.typeErr, st)
        | some inc =>
          if !(k.relateTstar dg inc) then
            if !(isLatestVersion st d) then
              let (st1, pk) := insertRow st { d with version := v0 + 1 }
              let st2 := cloneRelationsFrom st1 d.id pk
              addGeounitsLoop k cat geounit_ids geolevel districtid incremental v0 rest true target st2
            else
              addGeounitsLoop k cat geounit_ids geolevel districtid incremental v0 rest fixed target st
          else
            match get_mixed_geounits k cat geounit_ids geolevel (some dg) true with
            | .error e => .error (e, st)
            | .ok geounits =>
              let fixed1 := if 0 < geounits.length then true else fixed
              match k.difference dg inc with
              | none => .error (.geos, st)
              | some geomDiff =>
                let dMut := { d with geom := some (enforce_multi (some geomDiff) false) }
                let (st1, pk) := insertRow st (simplifyRow { dMut with version := v0 + 1 })
                let st2 := cloneRelationsFrom st1 d.id pk
                match delta_stats cat pk geounits false st2.computed with
                | .error (e, compPartial) => .error (e, { st2 with computed := compPartial })
                | .ok (_, comp1) =>
                  addGeounitsLoop k cat geounit_ids geolevel districtid incremental v0 rest
                    fixed1 target { st2 with computed := comp1 }

/-- The locked-geometry step of `add_geounits` (models.py:840-846):
`buffer(0)` a truthy locked geometry and, when it is non-empty,
subtract it from the incremental geometry (a `None` incremental raises
`AttributeError`; the unguarded kernel difference may raise
`GEOSException`). -/
def addLockedStep (k : GeoKernel) (incremental0 locked0 : Option Geom) (st0 : PlanState) :
    Except (KErr × PlanState) (Option Geom × Option Geom) :=
  if optFalsy locked0 then .ok (incremental0, locked0)
  else
    match locked0 with
    | none => .ok (incremental0, locked0)
    | some lg =>
      let lg1 := if lg.isEmpty then lg else k.buffer0 lg
      if lg1.isEmpty then .ok (incremental0, some lg1)
      else
        match incremental0 with
        | none => .error (.attrErr, st0)
        | some inc =>
          match k.difference inc lg1 with
          | none => .error (.geos, st0)
          | some incD => .ok (some incD, some lg1)

/-- The bounds computation of the `add_geounits` tail
(models.py:930-940): when there is locked geometry, augment the target
geometry with it (an unguarded kernel union). -/
def addBoundsStep (k : GeoKernel) (lockedVar targetGeom : Option Geom) (st3 : PlanState) :
    Except (KErr × PlanState) (Option Geom) :=
  if !(optFalsy lockedVar) then
    match lockedVar with
    | none => .ok none
    | some lg =>
      if !(optFalsy targetGeom) then
        match targetGeom with
        | some tg =>
          match k.union2 tg lg with
          | none => .error (.geos, st3)
          | some u => .ok (some u)
        | none => .ok (some lg)
      else .ok (some lg)
  else .ok targetGeom

/-- The target-geometry computation of the `add_geounits` tail
(models.py:949-965): union a truthy target geometry with the
incremental geometry (an unguarded kernel union), else coerce the
incremental geometry. -/
def addTargetGeomStep (k : GeoKernel) (targetGeom incremental : Option Geom)
    (st3 : PlanState) : Except (KErr × PlanState) Geom :=
  if !(optFalsy targetGeom) then
    match targetGeom, incremental with
    | some tg, some inc =>
      match k.union2 tg inc with
      | none => .error (.geos, st3)
      | some u => .ok (enforce_multi (some u) false)
    | some _, none => .error (.typeErr, st3)
    | none, _ => .error (.attrErr, st3)
  else .ok (enforce_multi incremental false)

/-- The tail of `Plan.add_geounits` after the district loop and the
target dispatch (models.py:930-996): select the mixed geounits outside
the target/locked bounds, write the new target row at `version + 1`
with cloned relations and added statistics, bump the plan version,
invalidate the plan, apply the bounded-undo purge, and drop the
temporary target row (cascading its computed rows). -/
def add_geounits_finish2 (k : GeoKernel) (cat : Catalog) (cfg : Settings)
    (districtid : Nat) (geounit_ids : List Nat) (geolevel : Nat) (keep_old_versions : Bool)
    (incremental lockedVar : Option Geom) (fixed1 : Bool)
    (target : DistrictRow) (new_target : Bool) (tempPk : Nat)
    (st3 : PlanState) : Except (KErr × PlanState) (Bool × PlanState) :=
    match addBoundsStep k lockedVar target.geom st3 with
    | .error e => .error e
    | .ok bounds =>
      match get_mixed_geounits k cat geounit_ids geolevel bounds false with
      | .error e => .error (e, st3)
      | .ok geounits2 =>
        let fixed2 := if 0 < geounits2.length then true else fixed1
        match addTargetGeomStep k target.geom incremental st3 with
        | .error e => .error e
        | .ok newTg =>
          let (st4, pk2) := insertRow st3
            (simplifyRow { target with geom := some newTg, version := st3.version + 1 })
          let st5 := cloneRelationsFrom st4 target.id pk2
          match delta_stats cat pk2 geounits2 true st5.computed with
          | .error (e, compPartial) => .error (e, { st5 with computed := compPartial })
          | .ok (_, comp2) =>
            let st6 := { st5 with computed := comp2, is_valid := false,
                                  version := st5.version + 1 }
            let st7 :=
              if 0 < cfg.max_undos_during_edit && !keep_old_versions then
                purge_beyond_nth_step st6 cfg.max_undos_during_edit
              else st6
            let st8 :=
              if new_target then
                { st7 with
                  districts := st7.districts.filter (fun r => r.id != tempPk),
                  computed := st7.computed.filter (fun c => c.district != tempPk) }
              else st7
            .ok (fixed2, st8)

/-- The mkTarget dispatch of the `add_geounits` tail
(models.py:919-928): reuse the target loaded at the base version, or
save a temporary target row at the current plan version. -/
def add_geounits_finish (k : GeoKernel) (cat : Catalog) (cfg : Settings)
    (districtid : Nat) (geounit_ids : List Nat) (geolevel : Nat) (keep_old_versions : Bool)
    (incremental lockedVar : Option Geom) (fixed1 : Bool) (targetOpt : Option DistrictRow)
    (st2 : PlanState) : Except (KErr × PlanState) (Bool × PlanState) :=
  match targetOpt with
  | some t =>
    add_geounits_finish2 k cat cfg districtid geounit_ids geolevel keep_old_versions
      incremental lockedVar fixed1 t false 0 st2
  | none =>
    let nm := cat.member ++ toString districtid
    let row : DistrictRow :=
      { id := 0, district_id := districtid, name := nm, version := st2.version,
        is_locked := false, geom := none, simple := none }
    let (stN, pk) := insertRow st2 row
    add_geounits_finish2 k cat cfg districtid geounit_ids geolevel keep_old_versions
      incremental lockedVar fixed1 { row with id := pk } true pk stN

/-- `Plan.add_geounits(districtid, geounit_ids, geolevel, version,
keep_old_versions)` (models.py:796), without the transaction wrapper:
the raw computation, whose errors carry the state at raise time.
Mirrors the source: union the selected geounits; load districts at the
base version and return `False` untouched when the target is locked;
collect the locked geometry, `buffer(0)` it and subtract it from the
incremental geometry; purge strictly after the base version; process
the non-target districts; create a temporary target row when the
target does not exist at the base version; select the mixed geounits
outside the target/locked bounds; write the new target row at
`version + 1` with cloned relations and added statistics; bump the
plan version, invalidate the plan, apply the bounded-undo purge, and
drop the temporary target row (cascading its computed rows). -/
def add_geounits (k : GeoKernel) (cat : Catalog) (cfg : Settings) (st0 : PlanState)
    (districtid : Nat) (geounit_ids : List Nat) (geolevel : Nat) (version : Nat)
    (keep_old_versions : Bool) : Except (KErr × PlanState) (Bool × PlanState) :=
  let incremental0 := unionaggUnits cat geounit_ids
  let districts := districtsAtVersion st0 version
  if districts.any (fun d => d.is_locked && d.district_id == districtid) then
    .ok (false, st0)
  else
    let lockedPks := (districts.filter (fun d => d.is_locked)).map (fun d => d.id)
    let lockedGeoms := (st0.districts.filter (fun r => lockedPks.contains r.id)).filterMap (fun r => r.geom)
    let locked0 : Option Geom :=
      if lockedGeoms.isEmpty then none
      else some (Geom.geomCollection (some 3785) (lockedGeoms.flatMap geomMembers))
    match addLockedStep k incremental0 locked0 st0 with
    | .error e => .error e
    | .ok (incremental, lockedVar) =>
      let st1 := purge st0 none (some version)
      match addGeounitsLoop k cat geounit_ids geolevel districtid incremental st0.version
          districts false none st1 with
      | .error e => .error e
      | .ok (fixed1, targetOpt, st2) =>
        add_geounits_finish k cat cfg districtid geounit_ids geolevel keep_old_versions
          incremental lockedVar fixed1 targetOpt st2

/-- `Plan.add_geounits` as called (models.py:796 with
`@transaction.commit_on_success`): on any exception every write of the
call is rolled back, so the observable state is the entry state. -/
def add_geounits_tx (k : GeoKernel) (cat : Catalog) (cfg : Settings) (st : PlanState)
    (districtid : Nat) (geounit_ids : List Nat) (geolevel : Nat) (version : Nat)
    (keep_old_versions : Bool) : Except KErr Bool × PlanState :=
  match add_geounits k cat cfg st districtid geounit_ids geolevel version keep_old_versions with
  | .ok (b, stOut) => (.ok b, stOut)
  | .error (e, _) => (.error e, st)

/-- `Plan.get_biggest_geolevel` (models.py:998): the geolevel with the
minimum zoom, i.e. the coarsest level of the hierarchy. -/
def biggestGeolevel (cat : Catalog) : Nat := cat.levels.headD 0

/-- Update the district row with primary key `pk` in place
(`save()` on an existing row). -/
def updateRow (st : PlanState) (pk : Nat) (r : DistrictRow) : PlanState :=
  { st with districts := st.districts.map (fun s => if s.id == pk then r else s) }

/-- Delete a district row and (Django FK cascade) its computed
characteristics; comments and tagged items are loosely bound and stay
behind. -/
def deleteRowCascade (st : PlanState) (pk : Nat) : PlanState :=
  { st with districts := st.districts.filter (fun r => r.id != pk),
            computed := st.computed.filter (fun c => c.district != pk) }

/-- The slot scan of `paste_district` (models.py:1085-1088): the first
district other than Unassigned whose geometry is GEOS-empty; a row with
a NULL geometry makes `d.geom.empty` raise `AttributeError`. -/
def findSlot : List DistrictRow → Except KErr (Option Nat)
  | [] => .ok none
  | d :: rest =>
    if d.district_id != 0 then
      match d.geom with
      | none => .error .attrErr
      | some g => if g.isEmpty then .ok (some d.district_id) else findSlot rest
    else findSlot rest

/-- The `set_district_id` pre-save signal (models.py:2071): when a
district is saved without a `district_id`, assign the lowest id in
`1..max_districts+1` not used by a district with geometry at the row's
version, or raise `ValidationError` at capacity. -/
def setDistrictId (cat : Catalog) (st : PlanState) (ver : Nat) : Except KErr Nat :=
  let ds := districtsAtVersion st ver
  let ids_in_use := (ds.filter (fun d => d.geom.isSome)).map (fun d => d.district_id)
  let maxd := cat.maxDistricts + 1
  if maxd ≤ ids_in_use.length then .error .validationErr
  else .ok (((List.range' 1 maxd).find? (fun i => !(ids_in_use.contains i))).getD 0)

/-- The `MultiPolygon(...)` constructor applied to the polygonal
members filtered out of a GeometryCollection (models.py:1115-1118):
Polygon and LinearRing members contribute their rings' area; a
MultiPolygon member would make the constructor raise `TypeError`. -/
def multiPolygonOf (srid : Option Int) : List SGeom → Except KErr Geom
  | [] => .ok (Geom.simple (SGeom.multiPolygon srid []))
  | sg :: rest =>
    match sg with
    | SGeom.polygon _ a =>
      match multiPolygonOf srid rest with
      | .ok (Geom.simple (SGeom.multiPolygon s ps)) => .ok (Geom.simple (SGeom.multiPolygon s (a :: ps)))
      | .ok g => .ok g
      | .error e => .error e
    | SGeom.linearRing _ a =>
      match multiPolygonOf srid rest with
      | .ok (Geom.simple (SGeom.multiPolygon s ps)) => .ok (Geom.simple (SGeom.multiPolygon s (a :: ps)))
      | .ok g => .ok g
      | .error e => .error e
    | _ => .error .typeErr

/-- Is this GEOS type one of `acceptable_intersections = ('Polygon',
'MultiPolygon', 'LinearRing')` (models.py:1057)? -/
def acceptableIntersection : SGeom → Bool
  | SGeom.polygon _ _ => true
  | SGeom.multiPolygon _ _ => true
  | SGeom.linearRing _ _ => true
  | _ => false

/-- The geometry-type dispatch on an intersection result
(models.py:1114-1120): a GeometryCollection keeps only acceptable
members (skip when none survive, else rebuild a MultiPolygon); an
empty or non-acceptable simple geometry is skipped; `none` means the
loop body `continue`s. -/
def intersectionDispatch (inter : Geom) : Except KErr (Option Geom) :=
  match inter with
  | Geom.geomCollection s items =>
    let keep := items.filter acceptableIntersection
    if keep.isEmpty then .ok none
    else
      match multiPolygonOf s keep with
      | .ok g => .ok (some g)
      | .error e => .error e
  | Geom.simple sg =>
    if (Geom.simple sg).isEmpty || !(acceptableIntersection sg) then .ok none
    else .ok (some (Geom.simple sg))

/-- The candidate geounit ids for the stats update of a paste: the
units at the coarsest geolevel whose bounding box overlaps the overlap
region (`geom__bboverlaps`, abstracted to atom intersection). -/
def bboverlapIds (cat : Catalog) (g : Geom) : List Nat :=
  ((cat.units.filter (fun u => u.geolevel == biggestGeolevel cat &&
    atomsIntersect u.atoms g.atoms)).map (fun u => u.id))

/-- The per-existing-district loop of `paste_district`
(models.py:1105-1161), threading the mutable `pasted` row, the
`edited_districts` list and the store.  A locked overlapping district
carves the pasted district down (deleting it and returning `None` when
nothing is left); an unlocked one is carved by the pasted geometry, the
first paste of a batch cloning it to a fresh row first; in both cases
the overlap's mixed geounits are subtracted from the carved side's
statistics. -/
def pasteLoop (k : GeoKernel) (cat : Catalog) (version : Nat) (first_run : Bool) :
    List DistrictRow → DistrictRow → List DistrictRow → PlanState →
    Except (KErr × PlanState) (Option (DistrictRow × List DistrictRow) × PlanState)
  | [], pasted, edited, st => .ok (some (pasted, edited), st)
  | existing :: rest, pasted, edited, st =>
    let new_version := version + 1
    if optFalsy existing.geom || optFalsy pasted.geom then
      pasteLoop k cat version first_run rest pasted (edited ++ [existing]) st
    else
      match existing.geom, pasted.geom with
      | some eg, some pg =>
        if k.intersectsG eg pg then
          (match k.intersection eg pg with
          | none => .error (.geos, st)
          | some inter0 =>
            match intersectionDispatch inter0 with
            | .error e => .error (e, st)
            | .ok none => pasteLoop k cat version first_run rest pasted (edited ++ [existing]) st
            | .ok (some inter) =>
              if existing.is_locked then
                (match k.difference pg eg with
                 | none => .error (.geos, st)
                 | some diff =>
                   if diff.isEmpty then .ok (none, deleteRowCascade st pasted.id)
                   else
                     let pasted1 := simplifyRow { pasted with geom := some (enforce_multi (some diff) false) }
                     let st1 := updateRow st pasted.id pasted1
                     let gids := bboverlapIds cat (enforce_multi (some inter) false)
                     match get_mixed_geounits k cat gids (biggestGeolevel cat) (some inter) true with
                     | .error e => .error (e, st1)
                     | .ok geounits =>
                       match delta_stats cat pasted.id geounits false st1.computed with
                       | .error (e, comp) => .error (e, { st1 with computed := comp })
                       | .ok (_, comp) =>
                         pasteLoop k cat version first_run rest pasted1 (edited ++ [existing])
                           { st1 with computed := comp })
              else
                match k.difference eg pg with
                | none => .error (.geos, st)
                | some diff0 =>
                  let diff := enforce_multi (some diff0) false
                  let cloned : DistrictRow × PlanState :=
                    if first_run then
                      let (stA, npk) := insertRow st existing
                      ({ existing with id := npk }, cloneRelationsFrom stA existing.id npk)
                    else (existing, st)
                  match cloned with
                  | (nd0, st1) =>
                    let nd1 := simplifyRow { nd0 with geom := some diff, version := new_version }
                    let st2 := updateRow st1 nd0.id nd1
                    let gids := bboverlapIds cat inter
                    match get_mixed_geounits k cat gids (biggestGeolevel cat) (some inter) true with
                    | .error e => .error (e, st2)
                    | .ok geounits =>
                      if nd1.geom.isSome then
                        (match delta_stats cat nd1.id geounits false st2.computed with
                         | .error (e, comp) => .error (e, { st2 with computed := comp })
                         | .ok (_, comp) =>
                           pasteLoop k cat version first_run rest pasted (edited ++ [nd1])
                             { st2 with computed := comp })
                      else
                        pasteLoop k cat version first_run rest pasted (edited ++ [nd1])
                          { st2 with computed := st2.computed.filter (fun c => c.district != nd1.id) })
        else
          pasteLoop k cat version first_run rest pasted (edited ++ [existing]) st
      | _, _ => .error (.attrErr, st)

/-- `Plan.paste_district(district, version, others)` (models.py:1059):
paste one foreign district into the plan.  `srcComputed` carries the
computed characteristics of the foreign district (its comments and tags
live in the foreign plan's store and are not modelled).  Returns the
new row's primary key and the edited-districts working set, or `None`
when the pasted district was consumed by locked districts. -/
def paste_district (k : GeoKernel) (cat : Catalog) (st0 : PlanState)
    (src : DistrictRow) (srcComputed : List CompChar) (version : Nat)
    (othersIn : Option (List DistrictRow)) :
    Except (KErr × PlanState) (Option (Nat × List DistrictRow) × PlanState) :=
  let new_version := version + 1
  let frOthers : Bool × List DistrictRow :=
    match othersIn with
    | none => (true, districtsAtVersion st0 version)
    | some o => (false, o)
  match frOthers with
  | (first_run, others) =>
    match findSlot others with
    | .error e => .error (e, st0)
    | .ok slot =>
      let named : Except KErr (Nat × String) :=
        match slot with
        | some s => .ok (s, cat.member ++ toString s)
        | none => (setDistrictId cat st0 new_version).map (fun i => (i, ""))
      match named with
      | .error e => .error (e, st0)
      | .ok (did, newname) =>
        let row : DistrictRow :=
          { id := 0, district_id := did, name := newname, version := new_version,
            is_locked := false, geom := src.geom, simple := src.simple }
        let (st1, pk) := insertRow st0 row
        let finalName := if newname == "" then cat.member ++ toString did else newname
        let st2 := if newname == "" then updateRow st1 pk { row with id := pk, name := finalName } else st1
        let pasted : DistrictRow := { row with id := pk, name := finalName }
        let st3 := { st2 with
          computed := st2.computed ++ srcComputed.map (fun c => { c with district := pk }) }
        match pasteLoop k cat version first_run others pasted [] st3 with
        | .error e => .error e
        | .ok (none, st4) => .ok (none, st4)
        | .ok (some (pasted1, edited), st4) => .ok (some (pasted1.id, edited), st4)

/-- Errors of `paste_districts`: the explicit capacity `Exception`
(models.py:1039), or an error raised inside the per-district paste. -/
inductive PasteErr where
  | capacity
  | inner (e : KErr)
deriving Repr, DecidableEq

/-- The capacity scan of `paste_districts` (models.py:1034-1036): count
the occupied slots (the Unassigned district plus every district with a
GEOS-non-empty geometry); a non-Unassigned row with a NULL geometry
makes `d.geom.empty` raise `AttributeError`. -/
def occupiedCount : List DistrictRow → Except KErr Nat
  | [] => .ok 0
  | d :: rest =>
    if d.district_id == 0 then (occupiedCount rest).map (fun n => n + 1)
    else
      match d.geom with
      | none => .error .attrErr
      | some g =>
        if !g.isEmpty then (occupiedCount rest).map (fun n => n + 1)
        else occupiedCount rest

/-- The paste chain of `paste_districts` (models.py:1044-1049): paste
each source district, threading the edited-districts working set; the
source's unpacking of a `None` result raises `TypeError`. -/
def pasteDistrictsGo (k : GeoKernel) (cat : Catalog) (version : Nat) :
    List (DistrictRow × List CompChar) → Option (List DistrictRow) → List Nat → PlanState →
    Except (PasteErr × PlanState) (List Nat × PlanState)
  | [], _, acc, st => .ok (acc, st)
  | (src, srcComp) :: rest, others, acc, st =>
    match paste_district k cat st src srcComp version others with
    | .error (e, st1) => .error (.inner e, st1)
    | .ok (none, st1) => .error (.inner .typeErr, st1)
    | .ok (some (pk, edited), st1) =>
      pasteDistrictsGo k cat version rest (some edited) (if 0 < pk then acc ++ [pk] else acc) st1

/-- `Plan.paste_districts(districts, version)` (models.py:1014): check
capacity (`Exception('Tried to merge too many districts')` when the
occupied slots already exhaust `max_districts + 1`), purge history
after the base version if it is in the past, paste every district in
order, and bump the plan version once when anything was pasted. -/
def paste_districts (k : GeoKernel) (cat : Catalog) (st0 : PlanState)
    (districts : List (DistrictRow × List CompChar)) (versionIn : Option Nat) :
    Except (PasteErr × PlanState) (List Nat × PlanState) :=
  let version := versionIn.getD st0.version
  let current := districtsAtVersion st0 version
  match occupiedCount current with
  | .error e => .error (.inner e, st0)
  | .ok occ =>
    if cat.maxDistricts + 1 ≤ occ then .error (.capacity, st0)
    else
      let st1 := if version < st0.version then purge st0 none (some version) else st0
      match pasteDistrictsGo k cat version districts none [] st1 with
      | .error e => .error e
      | .ok (pasted_list, st2) =>
        if 0 < pasted_list.length then .ok (pasted_list, { st2 with version := version + 1 })
        else .ok (pasted_list, st2)

/-- The polygon members of a (multi)polygon geometry, as iterated by
`for poly in district.geom` (district and Unassigned geometries are
MultiPolygons throughout the engine). -/
def geomPolys : Geom → List (List Nat)
  | Geom.simple (SGeom.multiPolygon _ ps) => ps
  | Geom.simple (SGeom.polygon _ a) => [a]
  | _ => []

/-- `geomPolys` through an optional geometry. -/
def geomPolysOpt : Option Geom → List (List Nat)
  | none => []
  | some g => geomPolys g

/-- `Plan.get_base_geounits_in_geom(geom, threshold)` (models.py:1353):
the base-level geounits whose centroid lies within the geometry.  The
source's simplify + buffer-in/buffer-out optimization refines exactly
this centroid predicate against the unsimplified geometry, so the
embedding queries the centroid directly; a falsy geometry yields no
units. -/
def baseGeounitsInGeom (cat : Catalog) (base : Nat) (g : Option Geom) : List Nat :=
  match g with
  | none => []
  | some g0 =>
    if g0.pyFalsy then []
    else (cat.units.filter (fun u => u.geolevel == base && g0.atoms.contains u.center)).map
      (fun u => u.id)

/-- The first row of `order_by('-version')`. -/
def topByVersionDesc (rows : List DistrictRow) : Option DistrictRow :=
  rows.foldl (fun acc r =>
    match acc with
    | none => some r
    | some b => if b.version < r.version then some r else some b) none

/-- `Plan.get_unassigned_geounits(threshold, version)` (models.py:1451):
the base geounits of the newest Unassigned row at or below `version`.
The source's `if version:` treats version 0 like `None` (Python
falsiness), dropping the version filter; indexing an empty query set
raises. -/
def getUnassignedGeounits (cat : Catalog) (st : PlanState) (version : Option Nat) :
    Except KErr (List Nat) :=
  let rows :=
    match version with
    | some v =>
      if v ≠ 0 then st.districts.filter (fun r => r.district_id == 0 && r.version ≤ v)
      else st.districts.filter (fun r => r.district_id == 0)
    | none => st.districts.filter (fun r => r.district_id == 0)
  match topByVersionDesc rows with
  | none => .error .indexErr
  | some row => .ok (baseGeounitsInGeom cat (cat.levels.getLastD 0) row.geom)

/-- Modelled from the spec: the comparator value of a district.  The
`Sum` score calculator over `FIX_UNASSIGNED_COMPARATOR_SUBJECT`
(`publicmapping.redistricting.calculators.Sum`, a module that is not
part of src/) reads the district's computed aggregate for the
configured subject; spec §4.F.4 describes it as "the adjacent unlocked
district whose comparator subject (typically population) is currently
smallest". -/
def comparatorValue (st : PlanState) (dpk : Nat) (subj : Nat) : Rat :=
  match findComputed st.computed dpk subj with
  | some c => c.number
  | none => 0

/-- Insert-or-overwrite into the `to_add` association map
`geounit id ↦ (district_id, comparator value)`. -/
def mapPut (m : List (Nat × Nat × Rat)) (key : Nat) (v : Nat × Rat) : List (Nat × Nat × Rat) :=
  if m.any (fun e => e.1 == key) then
    m.map (fun e => if e.1 == key then (key, v) else e)
  else m ++ [(key, v)]

/-- Lookup in the `to_add` association map. -/
def mapGet (m : List (Nat × Nat × Rat)) (key : Nat) : Option (Nat × Rat) :=
  (m.find? (fun e => e.1 == key)).map (fun e => e.2)

/-- The hole-fill phase of `fix_unassigned` (models.py:1529-1534): for
every polygon of the Unassigned geometry that lies within the exterior
ring of a polygon of an unlocked district, record all base geounits of
that polygon for that district, with comparator value 0. -/
def holeFillAdds (k : GeoKernel) (cat : Catalog) (base : Nat) (uPolys : List (List Nat))
    (districts : List DistrictRow) : List (Nat × Nat × Rat) :=
  uPolys.foldl (fun m upoly =>
    districts.foldl (fun m d =>
      (geomPolysOpt d.geom).foldl (fun m dpoly =>
        if k.withinExteriorRing upoly dpoly then
          (baseGeounitsInGeom cat base (some (Geom.simple (SGeom.polygon (some 3785) upoly)))).foldl
            (fun m gid => mapPut m gid (d.district_id, 0)) m
        else m) m) m) []

/-- The adjacency phase of `fix_unassigned` (models.py:1559-1591):
restrict the remaining unassigned geounits to the "edge" ones (the
source re-tests `intersects(unassigned_geom)` once per Unassigned
polygon, deduplicating), then assign each edge geounit touching the
exterior ring of some unlocked district's polygon to the touching
district with the smallest comparator value. -/
def adjacencyAdds (k : GeoKernel) (cat : Catalog) (st : PlanState) (cfg : Settings)
    (uGeom : Geom) (unassignedIds : List Nat) (districts : List DistrictRow)
    (toAdd : List (Nat × Nat × Rat)) : List (Nat × Nat × Rat) :=
  let units0 := cat.units.filter (fun u => unassignedIds.contains u.id)
  let edge := (geomPolys uGeom).foldl (fun temp _poly =>
    units0.foldl (fun temp g =>
      if !(temp.any (fun h => h == g)) && k.intersectsG (Geom.simple (unitGeom g)) uGeom then
        temp ++ [g]
      else temp) temp) []
  districts.foldl (fun m d =>
    let dist_val := comparatorValue st d.id cfg.fix_unassigned_comparator_subject
    (geomPolysOpt d.geom).foldl (fun m dpoly =>
      edge.foldl (fun m g =>
        if k.touchesExteriorRing g.atoms dpoly then
          match mapGet m g.id with
          | none => mapPut m g.id (d.district_id, dist_val)
          | some kv => if dist_val < kv.2 then mapPut m g.id (d.district_id, dist_val) else m
        else m) m) m) toAdd

/-- Group `to_add` into per-district geounit lists
(models.py:1596-1604), in first-encounter order. -/
def groupByDistrict (m : List (Nat × Nat × Rat)) : List (Nat × List Nat) :=
  m.foldl (fun acc e =>
    if acc.any (fun g => g.1 == e.2.1) then
      acc.map (fun g => if g.1 == e.2.1 then (g.1, g.2 ++ [e.1]) else g)
    else acc ++ [(e.2.1, [e.1])]) []

/-- The `add_geounits` chain of the fix (models.py:1607-1609): each
call runs in its own transaction, so an error keeps the effects of the
earlier calls and discards the failing call's writes. -/
def applyAddsGo (k : GeoKernel) (cat : Catalog) (cfg : Settings) (geolevel : Nat) :
    List (Nat × List Nat) → Nat → PlanState → Except (KErr × PlanState) PlanState
  | [], _, st => .ok st
  | (did, units) :: rest, version, st =>
    match add_geounits k cat cfg st did units geolevel version true with
    | .error (e, _) => .error (e, st)
    | .ok (_, st1) => applyAddsGo k cat cfg geolevel rest st1.version st1

/-- The application phase of `fix_unassigned` (models.py:1594-1628):
run `add_geounits` per target district, compact the interim versions so
one undo reverses the whole fix (delete the interim Unassigned rows —
an ORM `delete()`, cascading computed characteristics only — and
re-point the other interim rows to the final version), and build the
status message. -/
def applyAdds (k : GeoKernel) (cat : Catalog) (cfg : Settings) (geolevel version : Nat)
    (toAdd : List (Nat × Nat × Rat)) (num_unassigned : Nat) (st : PlanState) :
    Except (KErr × PlanState) ((Bool × String) × PlanState) :=
  let groups := groupByDistrict toAdd
  match applyAddsGo k cat cfg geolevel groups version st with
  | .error e => .error e
  | .ok st1 =>
    let num_adds := groups.length
    let st3 :=
      if 1 < num_adds then
        let lo := st1.version + 1 - num_adds
        let doomed := st1.districts.filter (fun r =>
          r.district_id == 0 && lo ≤ r.version && r.version < st1.version)
        let stA := doomed.foldl (fun s r => deleteRowCascade s r.id) st1
        { stA with districts := stA.districts.map (fun r =>
            if lo ≤ r.version && r.version < st1.version then { r with version := st1.version }
            else r) }
      else st1
    let num_fixed := toAdd.length
    let num_remaining : Int := (num_unassigned : Int) - (num_fixed : Int)
    let text := "Number of units fixed: " ++ toString num_fixed ++
      (if 0 < num_remaining then ", Number of units remaining: " ++ toString num_remaining else "")
    .ok ((true, text), st3)

/-- The unlocked districts with geometry that `fix_unassigned` works
over (models.py:1510-1513): the districts at the version other than
Unassigned and not locked, re-read with geometries and kept when the
geometry is truthy and non-empty. -/
def fixDistricts (st : PlanState) (v : Nat) : List DistrictRow :=
  (st.districts.filter (fun r =>
    ((districtsAtVersion st v).filter (fun d => d.district_id != 0 && !d.is_locked)).any
      (fun d => d.id == r.id))).filter (fun d =>
    match d.geom with
    | some g => !g.pyFalsy && !g.isEmpty
    | none => false)

/-- `Plan.fix_unassigned(version, threshold)` (models.py:1491): fix
unassigned base geounits by hole-fill, and by adjacency once every
district is assigned and the assigned fraction reaches
`FIX_UNASSIGNED_MIN_PERCENT / 100` (the percentage arithmetic, float in
the source, is modelled over the rationals; `str(int(x))` is modelled
with the floor, identical for the non-negative values that arise). -/
def fix_unassigned (k : GeoKernel) (cat : Catalog) (cfg : Settings) (st : PlanState)
    (versionIn : Option Nat) : Except (KErr × PlanState) ((Bool × String) × PlanState) :=
  let version := versionIn.getD st.version
  let geolevel := cat.levels.getLastD 0
  match st.districts.filter (fun r => r.district_id == 0 && r.version == version) with
  | [unassigned_district] =>
    if optFalsy unassigned_district.geom ||
       (match unassigned_district.geom with | some g => g.isEmpty | none => false) then
      .ok ((false, "There are no unassigned units that can be fixed."), st)
    else
      match unassigned_district.geom with
      | none => .ok ((false, "There are no unassigned units that can be fixed."), st)
      | some uGeom =>
        let districts := fixDistricts st version
        let toAdd := holeFillAdds k cat geolevel (geomPolys uGeom) districts
        let num_districts := (districtsAtVersion st version).length - 1
        let notAll := num_districts < cat.maxDistricts
        if notAll && toAdd.isEmpty then
          .ok ((false, "All districts need to be assigned before fixing can occur. Currently: " ++
            toString num_districts), st)
        else
          let stage2 : Except (KErr × PlanState)
              (Option (Bool × String) × List (Nat × Nat × Rat) × Nat) :=
            if notAll then .ok (none, toAdd, 0)
            else
              match getUnassignedGeounits cat st (some version) with
              | .error e => .error (e, st)
              | .ok uns =>
                let num_unassigned := uns.length
                let uns1 := uns.filter (fun gid => !(toAdd.any (fun e => e.1 == gid)))
                let num_total := (cat.units.filter (fun u => u.geolevel == geolevel)).length
                let pct_assigned : Rat := 1 - (num_unassigned : Rat) / (num_total : Rat)
                let below := pct_assigned < (cfg.fix_unassigned_min_percent : Rat) / 100
                if below && toAdd.isEmpty then
                  .ok (some (false, "The percentage of assigned units is: " ++
                    toString (pct_assigned * 100).floor ++
                    ". Fixing unassigned requires a minimum percentage of: " ++
                    toString cfg.fix_unassigned_min_percent), toAdd, num_unassigned)
                else if !below then
                  .ok (none, adjacencyAdds k cat st cfg uGeom uns1 districts toAdd, num_unassigned)
                else .ok (none, toAdd, num_unassigned)
          match stage2 with
          | .error e => .error e
          | .ok (some msg, _, _) => .ok (msg, st)
          | .ok (none, toAdd2, num_unassigned) =>
            if !toAdd2.isEmpty then applyAdds k cat cfg geolevel version toAdd2 num_unassigned st
            else
              .ok ((false,
                "No unassigned units could be fixed. Ensure the appropriate districts are not locked."),
                st)
  | _ => .error (.doesNotExist, st)

/-! ## Specification-side definitions and theorems -/

/-- The polygonal components of a simple geometry, as the specification
words them: a non-empty Polygon contributes its ring, a non-empty
MultiPolygon its member polygons, anything empty or non-areal
nothing. -/
def sgPolyComps : SGeom → List (List Nat)
  | SGeom.polygon _ a => if a.isEmpty then [] else [a]
  | SGeom.multiPolygon _ ps => if ps.all List.isEmpty then [] else ps
  | _ => []

/-- The polygonal components of a geometry: a GeometryCollection is
flattened to the concatenation of its members' polygonal components
(and an entirely empty collection contributes nothing). -/
def polyComps : Geom → List (List Nat)
  | Geom.simple sg => sgPolyComps sg
  | Geom.geomCollection _ items =>
    if items.all SGeom.isEmpty then [] else items.flatMap sgPolyComps

/-- `enforce_multi` without collapsing sends a simple geometry to the
MultiPolygon of its polygonal components. -/
theorem enforceMulti_simple (sg : SGeom) :
    enforce_multi (some (Geom.simple sg)) false =
      Geom.simple (SGeom.multiPolygon sg.srid (sgPolyComps sg)) := by
  cases sg with
  | point s => simp [enforce_multi, Geom.isEmpty, SGeom.isEmpty, sgPolyComps, Geom.srid, SGeom.srid]
  | lineString s =>
    simp [enforce_multi, Geom.isEmpty, SGeom.isEmpty, sgPolyComps, Geom.srid, SGeom.srid]
  | linearRing s a =>
    by_cases h : a.isEmpty <;>
      simp [enforce_multi, Geom.isEmpty, SGeom.isEmpty, h, sgPolyComps, Geom.srid, SGeom.srid]
  | polygon s a =>
    by_cases h : a.isEmpty <;>
      simp [enforce_multi, Geom.isEmpty, SGeom.isEmpty, h, sgPolyComps, Geom.srid, SGeom.srid]
  | multiPolygon s ps =>
    by_cases h : ps.all List.isEmpty <;>
      simp [enforce_multi, Geom.isEmpty, SGeom.isEmpty, h, sgPolyComps, Geom.srid, SGeom.srid]

/-- `enforce_multi` without collapsing sends any geometry to the
MultiPolygon of its polygonal components. -/
theorem enforceMulti_noCollapse (g : Geom) :
    enforce_multi (some g) false =
      Geom.simple (SGeom.multiPolygon g.srid (polyComps g)) := by
  cases g with
  | simple sg => exact enforceMulti_simple sg
  | geomCollection s items =>
    by_cases h : items.all SGeom.isEmpty
    · simp [enforce_multi, Geom.isEmpty, h, polyComps, Geom.srid]
    · simp only [enforce_multi, Geom.isEmpty, h, polyComps, Geom.srid, Bool.false_eq_true,
        if_false, enforceMulti_simple]

/-- An element of a member list is in the iterated union. -/
theorem mem_foldr_union {x : Nat} {p : List Nat} {ps : List (List Nat)}
    (hp : p ∈ ps) (hx : x ∈ p) : x ∈ ps.foldr List.union [] := by
  induction ps with
  | nil => simp at hp
  | cons q rest ih =>
    simp only [List.foldr_cons]
    have : (List.union q (rest.foldr List.union [])) = q ∪ rest.foldr List.union [] := rfl
    rw [this]
    rcases List.mem_cons.mp hp with hq | hq
    · exact List.mem_union_left (hq ▸ hx) _
    · exact List.mem_union_right _ (ih hq)

/-- The cascaded union of a not-everywhere-empty polygon list is
non-empty. -/
theorem foldr_union_not_empty {ps : List (List Nat)} (h : ps.all List.isEmpty = false) :
    (ps.foldr List.union []).isEmpty = false := by
  rcases List.all_eq_false.mp h with ⟨p, hp, hpe⟩
  rcases List.exists_mem_of_ne_nil p (by simpa [List.isEmpty_iff] using hpe) with ⟨x, hx⟩
  have hm : x ∈ ps.foldr List.union [] := mem_foldr_union hp hx
  cases hq : ps.foldr List.union [] with
  | nil => rw [hq] at hm; simp at hm
  | cons a l => rfl

/-- `enforce_multi` with collapsing: a Polygon is wrapped as is; any
other geometry becomes the empty MultiPolygon when its polygonal
components are all empty, and otherwise the MultiPolygon of their
single cascaded union. -/
theorem enforceMulti_collapse (g : Geom) :
    enforce_multi (some g) true =
      (match g with
       | Geom.simple (SGeom.polygon _ _) =>
         Geom.simple (SGeom.multiPolygon g.srid (polyComps g))
       | _ =>
         if (polyComps g).all List.isEmpty then Geom.simple (SGeom.multiPolygon g.srid [])
         else Geom.simple (SGeom.multiPolygon g.srid [(polyComps g).foldr List.union []])) := by
  cases g with
  | simple sg =>
    cases sg with
    | point s => simp [enforce_multi, Geom.isEmpty, SGeom.isEmpty, polyComps, sgPolyComps,
        Geom.srid, SGeom.srid]
    | lineString s => simp [enforce_multi, Geom.isEmpty, SGeom.isEmpty, polyComps, sgPolyComps,
        Geom.srid, SGeom.srid]
    | linearRing s a =>
      by_cases h : a.isEmpty <;>
        simp [enforce_multi, Geom.isEmpty, SGeom.isEmpty, h, polyComps, sgPolyComps,
          Geom.srid, SGeom.srid]
    | polygon s a =>
      by_cases h : a.isEmpty <;>
        simp [enforce_multi, Geom.isEmpty, SGeom.isEmpty, h, polyComps, sgPolyComps,
          Geom.srid, SGeom.srid]
    | multiPolygon s ps =>
      by_cases h : ps.all List.isEmpty
      · simp [enforce_multi, Geom.isEmpty, SGeom.isEmpty, h, polyComps, sgPolyComps,
          Geom.srid, SGeom.srid]
      · rw [Bool.not_eq_true] at h
        have hu := foldr_union_not_empty h
        simp only [enforce_multi, Geom.isEmpty, SGeom.isEmpty, h, Bool.false_eq_true, if_false,
          if_true, cascadedUnion, polyComps, sgPolyComps, Geom.srid, SGeom.srid,
          enforceMulti_simple]
        simp [sgPolyComps, hu, SGeom.srid]
  | geomCollection s items =>
    by_cases h : items.all SGeom.isEmpty
    · simp [enforce_multi, Geom.isEmpty, h, polyComps, Geom.srid]
    · rw [Bool.not_eq_true] at h
      simp only [enforce_multi, Geom.isEmpty, h, Bool.false_eq_true, if_false, if_true,
        Geom.srid, enforceMulti_simple, polyComps]
      by_cases hc : (items.flatMap sgPolyComps).all List.isEmpty
      · simp [enforce_multi, Geom.isEmpty, SGeom.isEmpty, hc, SGeom.srid]
      · rw [Bool.not_eq_true] at hc
        have hu := foldr_union_not_empty hc
        have hpoly : sgPolyComps (SGeom.polygon s
              (List.foldr List.union [] (items.flatMap sgPolyComps))) =
            [List.foldr List.union [] (items.flatMap sgPolyComps)] := by
          simp only [sgPolyComps, hu, Bool.false_eq_true, if_false]
        simp only [enforce_multi, Geom.isEmpty, SGeom.isEmpty, hc, Bool.false_eq_true, if_false,
          if_true, cascadedUnion, enforceMulti_simple, hpoly, SGeom.srid]

/-- C10: for every input — `None`, an empty geometry, a Polygon, a
MultiPolygon, a GeometryCollection, or any other geometry type —
`enforce_multi` returns a MultiPolygon and never `None`: a Polygon is
wrapped, a MultiPolygon is passed through (collapsed via cascaded
union when `collapse` is set), a GeometryCollection is flattened to
its polygonal components, and `None`, empty, or non-polygonal input
yields an empty MultiPolygon. -/
theorem C10_enforce_multi_shape :
    (∀ (og : Option Geom) (collapse : Bool), (enforce_multi og collapse).isMultiPolygon = true) ∧
    (∀ collapse : Bool, enforce_multi none collapse = Geom.simple (SGeom.multiPolygon none [])) ∧
    (∀ g : Geom, enforce_multi (some g) false =
      Geom.simple (SGeom.multiPolygon g.srid (polyComps g))) ∧
    (∀ g : Geom, enforce_multi (some g) true =
      (match g with
       | Geom.simple (SGeom.polygon _ _) =>
         Geom.simple (SGeom.multiPolygon g.srid (polyComps g))
       | _ =>
         if (polyComps g).all List.isEmpty then Geom.simple (SGeom.multiPolygon g.srid [])
         else Geom.simple (SGeom.multiPolygon g.srid [(polyComps g).foldr List.union []]))) := by
  refine ⟨?_, ?_, enforceMulti_noCollapse, enforceMulti_collapse⟩
  · intro og collapse
    cases og with
    | none => cases collapse <;> simp [enforce_multi, Geom.isMultiPolygon]
    | some g =>
      cases collapse with
      | false => rw [enforceMulti_noCollapse]; rfl
      | true =>
        rw [enforceMulti_collapse]
        split
        · rfl
        · split <;> rfl
  · intro collapse; cases collapse <;> simp [enforce_multi]

/-- C4: for every kernel, catalog, unit-id list and source geolevel,
the mixed-geounit selector returns the empty list when the boundary is
absent and `inside` is set (models.py:394-396). -/
theorem C4_mixed_absent_boundary_inside (k : GeoKernel) (cat : Catalog)
    (geounit_ids : List Nat) (geolevel : Nat) :
    get_mixed_geounits k cat geounit_ids geolevel none true = .ok [] := by
  simp [get_mixed_geounits, optFalsy]

/-- In a strictly descending list, exactly `i` elements are greater
than the element at index `i`. -/
theorem filter_gt_length_of_sorted_desc (l : List Nat)
    (hl : l.Pairwise (fun a b => b < a)) :
    ∀ (i : Nat) (h : i < l.length),
      (l.filter (fun v => l.get ⟨i, h⟩ < v)).length = i := by
  induction l with
  | nil => intro i h; simp at h
  | cons a tl ih =>
    intro i h
    have hhead : ∀ x ∈ tl, x < a := fun x hx => (List.pairwise_cons.mp hl).1 x hx
    have htail : tl.Pairwise (fun a b => b < a) := (List.pairwise_cons.mp hl).2
    cases i with
    | zero =>
      have : (a :: tl).get ⟨0, h⟩ = a := rfl
      rw [this, List.length_eq_zero]
      rw [List.filter_eq_nil_iff]
      intro x hx
      rcases List.mem_cons.mp hx with hx | hx
      · subst hx; simp
      · simp only [decide_eq_true_eq]
        exact not_lt.mpr (le_of_lt (hhead x hx))
    | succ j =>
      have hj : j < tl.length := Nat.succ_lt_succ_iff.mp h
      have hget : (a :: tl).get ⟨j + 1, h⟩ = tl.get ⟨j, hj⟩ := rfl
      rw [hget, List.filter_cons]
      have hlt : tl.get ⟨j, hj⟩ < a := hhead _ (List.get_mem tl j hj)
      simp only [decide_eq_true_eq, hlt, if_pos, List.length_cons]
      rw [ih htail j hj]

/-- The distinct-version enumeration is strictly descending. -/
theorem storedVersionsDesc_strict (st : PlanState) :
    (storedVersionsDesc st).Pairwise (fun a b => b < a) := by
  haveI ht : IsTotal Nat (fun a b => b ≤ a) := ⟨fun a b => le_total b a⟩
  haveI htr : IsTrans Nat (fun a b => b ≤ a) := ⟨fun _ _ _ h1 h2 => le_trans h2 h1⟩
  have hs : (storedVersionsDesc st).Pairwise (fun a b => b ≤ a) :=
    List.sorted_insertionSort _ _
  have hperm := List.perm_insertionSort (fun a b => b ≤ a)
    (st.districts.map (fun r => r.version)).dedup
  have hnd : (storedVersionsDesc st).Nodup :=
    hperm.nodup_iff.mpr (List.nodup_dedup _)
  exact (hs.and hnd).imp (fun hab => lt_of_le_of_ne hab.1 (fun he => hab.2 he.symm))

/-- C7: `get_nth_previous_version` returns the n-th distinct stored
district version in descending order — the returned value is a stored
version with exactly `n` distinct stored versions above it — and 0
when `n` reaches the number of distinct stored versions. -/
theorem C7_nth_previous_version (st : PlanState) (n : Nat) :
    (∀ h : n < (storedVersionsDesc st).length,
        get_nth_previous_version st n ∈ st.districts.map (fun r => r.version) ∧
        ((storedVersionsDesc st).filter
          (fun v => get_nth_previous_version st n < v)).length = n) ∧
    ((storedVersionsDesc st).length ≤ n → get_nth_previous_version st n = 0) := by
  constructor
  · intro h
    have hv : get_nth_previous_version st n = (storedVersionsDesc st).get ⟨n, h⟩ := by
      simp [get_nth_previous_version, h]
    constructor
    · rw [hv]
      have hmem : (storedVersionsDesc st).get ⟨n, h⟩ ∈ storedVersionsDesc st :=
        List.get_mem _ _ h
      have hperm := List.perm_insertionSort (fun a b => b ≤ a)
        (st.districts.map (fun r => r.version)).dedup
      have : (storedVersionsDesc st).get ⟨n, h⟩ ∈
          (st.districts.map (fun r => r.version)).dedup := hperm.mem_iff.mp hmem
      exact List.mem_dedup.mp this
    · rw [hv]
      exact filter_gt_length_of_sorted_desc _ (storedVersionsDesc_strict st) n h
  · intro h
    simp [get_nth_previous_version, Nat.not_lt.mpr h]

/-- C2: whenever the target district is locked at the base version,
`add_geounits` returns `False` and performs no side effects — no rows
created or deleted, no statistics changed, the plan version
untouched (models.py:837-838). -/
theorem C2_locked_target_no_side_effects (k : GeoKernel) (cat : Catalog) (cfg : Settings)
    (st : PlanState) (districtid : Nat) (geounit_ids : List Nat) (geolevel version : Nat)
    (keep : Bool)
    (h : (districtsAtVersion st version).any
      (fun d => d.is_locked && d.district_id == districtid) = true) :
    add_geounits_tx k cat cfg st districtid geounit_ids geolevel version keep =
      (.ok false, st) := by
  unfold add_geounits_tx add_geounits
  simp [h]

/-- The reference kernel over the atom model: set operations are total
list operations (the result of a binary set operation is returned as a
MultiPolygon carrying the left operand's SRID), `buffer(0)` is the
identity, and the predicates are atom-wise. -/
def atomKernel : GeoKernel where
  union2 a b := some (Geom.simple (SGeom.multiPolygon a.srid [a.atoms.union b.atoms]))
  difference a b :=
    some (Geom.simple (SGeom.multiPolygon a.srid
      (let d := a.atoms.filter (fun x => !(b.atoms.contains x))
       if d.isEmpty then [] else [d])))
  intersection a b :=
    some (Geom.simple (SGeom.multiPolygon a.srid
      (let d := a.atoms.filter (fun x => b.atoms.contains x)
       if d.isEmpty then [] else [d])))
  buffer0 g := g
  relateTstar a b := atomsIntersect a.atoms b.atoms
  intersectsG a b := atomsIntersect a.atoms b.atoms
  withinExteriorRing a b := stWithin a b
  touchesExteriorRing a b := atomsIntersect a b

/-- A kernel whose `difference` always raises `GEOSException`. -/
def failDiffKernel : GeoKernel := { atomKernel with difference := fun _ _ => none }

/-- Witness catalog: two geolevels (1 above the base level 2), one
county covering atoms 1-4 with four base tracts, one subject. -/
def catW : Catalog where
  units :=
    [ { id := 10, geolevel := 1, atoms := [1, 2, 3, 4], center := 1, child := none },
      { id := 1, geolevel := 2, atoms := [1], center := 1, child := some 10 },
      { id := 2, geolevel := 2, atoms := [2], center := 2, child := some 10 },
      { id := 3, geolevel := 2, atoms := [3], center := 3, child := some 10 },
      { id := 4, geolevel := 2, atoms := [4], center := 4, child := some 10 } ]
  subjects := [ { id := 0, sortKey := 1, percentage_denominator := none } ]
  characteristics := [(1, 0, 10), (2, 0, 20), (3, 0, 30), (4, 0, 40)]
  levels := [1, 2]
  maxDistricts := 2
  member := "District "

/-- Witness settings: undo purge disabled. -/
def cfgW : Settings where
  max_undos_during_edit := 0
  fix_unassigned_min_percent := 10
  fix_unassigned_comparator_subject := 0

/-- A convenient MultiPolygon literal for witness states. -/
def mpoly (ps : List (List Nat)) : Geom := Geom.simple (SGeom.multiPolygon (some 3785) ps)

/-- Witness state: an Unassigned district holding atoms 3-4 and a
locked district 1 holding atoms 1-2, both at version 0. -/
def stLocked : PlanState where
  districts :=
    [ { id := 1, district_id := 0, name := "Unassigned", version := 0, is_locked := false,
        geom := some (mpoly [[3, 4]]), simple := some (mpoly [[3, 4]]) },
      { id := 2, district_id := 1, name := "District 1", version := 0, is_locked := true,
        geom := some (mpoly [[1, 2]]), simple := some (mpoly [[1, 2]]) } ]
  computed := [ { district := 1, subject := 0, number := 70, percentage := none },
                { district := 2, subject := 0, number := 30, percentage := none } ]
  comments := [2]
  tags := []
  version := 0
  min_version := 0
  is_valid := true
  nextPk := 3

/-- Witness for C2: assigning into the locked district 1 of `stLocked`
returns `False` and leaves the state untouched. -/
theorem C2_locked_target_witness :
    (districtsAtVersion stLocked 0).any
      (fun d => d.is_locked && d.district_id == 1) = true ∧
    add_geounits_tx atomKernel catW cfgW stLocked 1 [3] 2 0 false = (.ok false, stLocked) :=
  ⟨by decide,
   C2_locked_target_no_side_effects atomKernel catW cfgW stLocked 1 [3] 2 0 false (by decide)⟩

/-- Witness state: versions 0 and 2 stored for district 1, version 0
for Unassigned (history with a hole at version 1). -/
def stHist : PlanState where
  districts :=
    [ { id := 1, district_id := 0, name := "Unassigned", version := 0, is_locked := false,
        geom := some (mpoly [[3, 4]]), simple := some (mpoly [[3, 4]]) },
      { id := 2, district_id := 1, name := "District 1", version := 0, is_locked := false,
        geom := some (mpoly [[1, 2]]), simple := some (mpoly [[1, 2]]) },
      { id := 3, district_id := 1, name := "District 1", version := 2, is_locked := false,
        geom := some (mpoly [[1]]), simple := some (mpoly [[1]]) } ]
  computed := []
  comments := []
  tags := []
  version := 2
  min_version := 0
  is_valid := true
  nextPk := 4

/-- Witness for C7: on `stHist` (stored versions 0 and 2), step 1 gives
version 0 — a stored version with exactly one distinct version above
it — and step 5 exceeds the history, giving 0. -/
theorem C7_nth_previous_version_witness :
    (1 < (storedVersionsDesc stHist).length ∧
      get_nth_previous_version stHist 1 ∈ stHist.districts.map (fun r => r.version) ∧
      ((storedVersionsDesc stHist).filter
        (fun v => get_nth_previous_version stHist 1 < v)).length = 1) ∧
    ((storedVersionsDesc stHist).length ≤ 5 ∧ get_nth_previous_version stHist 5 = 0) :=
  ⟨⟨by decide, (C7_nth_previous_version stHist 1).1 (by decide)⟩,
   ⟨by decide, (C7_nth_previous_version stHist 5).2 (by decide)⟩⟩

/-- `purge(after=V)` deletes exactly the district rows with version
strictly greater than `V` (the rows at or below `V` are untouched),
provided the store's primary keys are unique. -/
theorem purge_after_districts (st : PlanState) (V : Nat)
    (hpk : (st.districts.map (fun r => r.id)).Nodup) :
    (purge st none (some V)).districts =
      st.districts.filter (fun r => decide (r.version ≤ V)) := by
  have hinj := List.inj_on_of_nodup_map hpk
  simp only [purge, deleteRows]
  norm_num
  refine List.filter_congr ?_
  intro r hr
  by_cases hv : r.version ≤ V
  · have hmem : r.id ∉
        (st.districts.filter (fun r => decide (V < r.version))).map (fun r => r.id) := by
      intro hc
      rcases List.mem_map.mp hc with ⟨d, hd, hid⟩
      rcases List.mem_filter.mp hd with ⟨hdm, hdv⟩
      have hde : d = r := hinj hdm hr hid
      subst hde
      simp only [decide_eq_true_eq] at hdv
      omega
    simp [hmem, hv]
  · have hmem : r.id ∈
        (st.districts.filter (fun r => decide (V < r.version))).map (fun r => r.id) :=
      List.mem_map.mpr ⟨r, List.mem_filter.mpr ⟨hr, by simp; omega⟩, rfl⟩
    simp [hmem, hv]

/-- A comment (or tagged item) survives `purge(after=V)` exactly when
it is not bound to a deleted row. -/
theorem purge_after_cascade (st : PlanState) (V : Nat) :
    (purge st none (some V)).comments =
      st.comments.filter (fun c =>
        !((st.districts.filter (fun r => decide (V < r.version))).map (fun r => r.id)).contains c) ∧
    (purge st none (some V)).tags =
      st.tags.filter (fun t =>
        !((st.districts.filter (fun r => decide (V < r.version))).map (fun r => r.id)).contains t) := by
  simp [purge, deleteRows]

/-- `purge` never touches the plan version. -/
theorem purge_version (st : PlanState) (b a : Option Nat) :
    (purge st b a).version = st.version := by
  unfold purge deleteRows
  split
  · rfl
  · split
    · split <;> rfl
    · split <;> rfl

/-- `purge` never touches the primary-key allocator. -/
theorem purge_nextPk (st : PlanState) (b a : Option Nat) :
    (purge st b a).nextPk = st.nextPk := by
  unfold purge deleteRows
  split
  · rfl
  · split
    · split <;> rfl
    · split <;> rfl

/-- `purge` only ever deletes district rows. -/
theorem mem_purge_districts {st : PlanState} {b a : Option Nat} {r : DistrictRow}
    (h : r ∈ (purge st b a).districts) : r ∈ st.districts := by
  revert h
  unfold purge deleteRows
  split
  · exact id
  · split
    · split
      · exact id
      · exact fun h => (List.mem_filter.mp h).1
    · split
      · exact fun h => (List.mem_filter.mp h).1
      · exact id

/-- `purge_beyond_nth_step` never touches the plan version. -/
theorem purge_beyond_version (st : PlanState) (steps : Nat) :
    (purge_beyond_nth_step st steps).version = st.version := by
  unfold purge_beyond_nth_step
  by_cases h : st.min_version < get_nth_previous_version st steps <;>
    simp [h, purge_version]

/-- `purge_beyond_nth_step` never touches the primary-key allocator. -/
theorem purge_beyond_nextPk (st : PlanState) (steps : Nat) :
    (purge_beyond_nth_step st steps).nextPk = st.nextPk := by
  unfold purge_beyond_nth_step
  by_cases h : st.min_version < get_nth_previous_version st steps <;>
    simp [h, purge_nextPk]

/-- `purge_beyond_nth_step` only ever deletes district rows. -/
theorem mem_purge_beyond_districts {st : PlanState} {steps : Nat} {r : DistrictRow}
    (h : r ∈ (purge_beyond_nth_step st steps).districts) : r ∈ st.districts := by
  revert h
  unfold purge_beyond_nth_step
  by_cases hc : st.min_version < get_nth_previous_version st steps
  · simp only [hc, if_true]
    exact fun h => mem_purge_districts h
  · simp only [hc, if_false]
    exact id

/-- The invariant threaded through a successful `add_geounits`: every
district row is either an original row at or below the base version,
or a freshly allocated one. -/
def AddInv (st0 : PlanState) (version : Nat) (st : PlanState) : Prop :=
  (∀ r ∈ st.districts, (r ∈ st0.districts ∧ r.version ≤ version) ∨ st0.nextPk ≤ r.id) ∧
  st0.nextPk ≤ st.nextPk

/-- Inserting a fresh row preserves the invariant. -/
theorem AddInv_insertRow {st0 : PlanState} {version : Nat} {st : PlanState}
    (h : AddInv st0 version st) (r : DistrictRow) :
    AddInv st0 version (insertRow st r).1 := by
  refine ⟨?_, ?_⟩
  · intro s hs
    simp only [insertRow, List.mem_append, List.mem_singleton] at hs
    rcases hs with hs | hs
    · exact h.1 s hs
    · subst hs; right; simpa using h.2
  · have h2 := h.2
    simp only [insertRow]
    omega

/-- `clone_relations_from` does not touch district rows. -/
theorem AddInv_cloneRelations {st0 : PlanState} {version : Nat} {st : PlanState}
    (h : AddInv st0 version st) (a b : Nat) :
    AddInv st0 version (cloneRelationsFrom st a b) := h

/-- Replacing the computed characteristics does not touch district
rows. -/
theorem AddInv_setComputed {st0 : PlanState} {version : Nat} {st : PlanState}
    (h : AddInv st0 version st) (c : List CompChar) :
    AddInv st0 version { st with computed := c } := h

/-- The loop of `add_geounits` preserves the invariant. -/
theorem addGeounitsLoop_inv (k : GeoKernel) (cat : Catalog) (gids : List Nat)
    (gl did : Nat) (inc : Option Geom) (v0 : Nat) (st0 : PlanState) (version : Nat) :
    ∀ (ds : List DistrictRow) (fixed : Bool) (target : Option DistrictRow) (st : PlanState)
      (f : Bool) (t : Option DistrictRow) (st' : PlanState),
      AddInv st0 version st →
      addGeounitsLoop k cat gids gl did inc v0 ds fixed target st = .ok (f, t, st') →
      AddInv st0 version st' := by
  intro ds
  induction ds with
  | nil =>
    intro fixed target st f t st' hinv h
    simp only [addGeounitsLoop] at h
    cases h
    exact hinv
  | cons d rest ih =>
    intro fixed target st f t st' hinv h
    rw [addGeounitsLoop] at h
    by_cases hd : d.district_id = did
    · rw [if_pos hd] at h
      exact ih _ _ _ _ _ _ hinv h
    · rw [if_neg hd] at h
      repeat'
        first
        | exact ih _ _ _ _ _ _ hinv h
        | exact ih _ _ _ _ _ _ (AddInv_cloneRelations (AddInv_insertRow hinv _) _ _) h
        | exact ih _ _ _ _ _ _
            (AddInv_setComputed (AddInv_cloneRelations (AddInv_insertRow hinv _) _ _) _) h
        | exact Except.noConfusion h
        | split at h
        | dsimp only [] at h

/-- Record updates that keep the district rows and the key allocator
preserve the invariant. -/
theorem AddInv_upd {st0 : PlanState} {version : Nat} {st : PlanState}
    (h : AddInv st0 version st) (c : List CompChar) (iv : Bool) (vv : Nat) :
    AddInv st0 version { st with computed := c, is_valid := iv, version := vv } := h

/-- The bounded-undo purge preserves the invariant. -/
theorem AddInv_purge_beyond {st0 : PlanState} {version : Nat} {st : PlanState}
    (h : AddInv st0 version st) (steps : Nat) :
    AddInv st0 version (purge_beyond_nth_step st steps) :=
  ⟨fun r hr => h.1 r (mem_purge_beyond_districts hr),
   by rw [purge_beyond_nextPk]; exact h.2⟩

/-- Deleting rows by filter (with any computed-characteristic update)
preserves the invariant. -/
theorem AddInv_record_filter {st0 : PlanState} {version : Nat} {st : PlanState}
    (h : AddInv st0 version st) (p : DistrictRow → Bool) (c : List CompChar) :
    AddInv st0 version
      { st with districts := st.districts.filter p, computed := c } :=
  ⟨fun r hr => h.1 r (List.mem_filter.mp hr).1, h.2⟩

set_option maxHeartbeats 1600000 in
/-- The post-target tail of `add_geounits` preserves the invariant. -/
theorem add_geounits_finish2_inv (k : GeoKernel) (cat : Catalog) (cfg : Settings)
    (did : Nat) (gids : List Nat) (gl : Nat) (keep : Bool)
    (inc lv : Option Geom) (fixed1 : Bool) (target : DistrictRow) (nt : Bool) (tempPk : Nat)
    {st0 : PlanState} {version : Nat} {st3 : PlanState} {b : Bool} {st1 : PlanState}
    (hinv : AddInv st0 version st3)
    (h : add_geounits_finish2 k cat cfg did gids gl keep inc lv fixed1 target nt tempPk st3 =
      .ok (b, st1)) :
    AddInv st0 version st1 := by
  rw [add_geounits_finish2.eq_def] at h
  repeat'
    first
    | dsimp only [insertRow] at h
    | split at h
  all_goals
    first
    | exact Except.noConfusion h
    | (cases h
       constructor
       · intro r hr
         try dsimp only [] at hr
         repeat
           first
           | (replace hr := mem_purge_beyond_districts hr)
           | (replace hr := (List.mem_filter.mp hr).1)
           | (dsimp only [cloneRelationsFrom] at hr)
           | (dsimp only [] at hr)
         rcases List.mem_append.mp hr with hr2 | hr2
         · exact hinv.1 r hr2
         · right
           have h2 := hinv.2
           simp only [List.mem_singleton] at hr2
           subst hr2
           simpa using h2
       · have h2 := hinv.2
         try dsimp only [cloneRelationsFrom]
         try simp only [purge_beyond_nextPk]
         try dsimp only [cloneRelationsFrom]
         try dsimp only []
         omega)

/-- The tail of `add_geounits` preserves the invariant. -/
theorem add_geounits_finish_inv (k : GeoKernel) (cat : Catalog) (cfg : Settings)
    (did : Nat) (gids : List Nat) (gl : Nat) (keep : Bool)
    (inc lv : Option Geom) (fixed1 : Bool) (targetOpt : Option DistrictRow)
    {st0 : PlanState} {version : Nat} {st2 : PlanState} {b : Bool} {st1 : PlanState}
    (hinv : AddInv st0 version st2)
    (h : add_geounits_finish k cat cfg did gids gl keep inc lv fixed1 targetOpt st2 =
      .ok (b, st1)) :
    AddInv st0 version st1 := by
  cases targetOpt with
  | some t =>
    rw [add_geounits_finish] at h
    exact add_geounits_finish2_inv _ _ _ _ _ _ _ _ _ _ _ _ _ hinv h
  | none =>
    rw [add_geounits_finish] at h
    dsimp only [] at h
    exact add_geounits_finish2_inv _ _ _ _ _ _ _ _ _ _ _ _ _ (AddInv_insertRow hinv _) h

/-- The district loop of `add_geounits` never changes the plan
version. -/
theorem addGeounitsLoop_version (k : GeoKernel) (cat : Catalog) (gids : List Nat)
    (gl did : Nat) (inc : Option Geom) (v0 : Nat) :
    ∀ (ds : List DistrictRow) (fixed : Bool) (target : Option DistrictRow) (st : PlanState)
      (f : Bool) (t : Option DistrictRow) (st' : PlanState),
      addGeounitsLoop k cat gids gl did inc v0 ds fixed target st = .ok (f, t, st') →
      st'.version = st.version := by
  intro ds
  induction ds with
  | nil =>
    intro fixed target st f t st' h
    simp only [addGeounitsLoop] at h
    cases h
    rfl
  | cons d rest ih =>
    intro fixed target st f t st' h
    rw [addGeounitsLoop] at h
    by_cases hd : d.district_id = did
    · rw [if_pos hd] at h
      exact ih _ _ _ _ _ _ h
    · rw [if_neg hd] at h
      repeat'
        first
        | exact (ih _ _ _ _ _ _ h).trans rfl
        | exact Except.noConfusion h
        | dsimp only [insertRow] at h
        | split at h

set_option maxHeartbeats 1600000 in
/-- The post-target tail of `add_geounits` advances the plan version by
exactly one. -/
theorem add_geounits_finish2_version (k : GeoKernel) (cat : Catalog) (cfg : Settings)
    (did : Nat) (gids : List Nat) (gl : Nat) (keep : Bool)
    (inc lv : Option Geom) (fixed1 : Bool) (target : DistrictRow) (nt : Bool) (tempPk : Nat)
    {st3 : PlanState} {b : Bool} {st1 : PlanState}
    (h : add_geounits_finish2 k cat cfg did gids gl keep inc lv fixed1 target nt tempPk st3 =
      .ok (b, st1)) :
    st1.version = st3.version + 1 := by
  rw [add_geounits_finish2.eq_def] at h
  repeat'
    first
    | dsimp only [insertRow] at h
    | split at h
  all_goals
    first
    | exact Except.noConfusion h
    | (cases h
       try dsimp only []
       try simp only [purge_beyond_version]
       try dsimp only [cloneRelationsFrom]
       try dsimp only []
       try rfl)

/-- The tail of `add_geounits` advances the plan version by exactly
one. -/
theorem add_geounits_finish_version (k : GeoKernel) (cat : Catalog) (cfg : Settings)
    (did : Nat) (gids : List Nat) (gl : Nat) (keep : Bool)
    (inc lv : Option Geom) (fixed1 : Bool) (targetOpt : Option DistrictRow)
    {st2 : PlanState} {b : Bool} {st1 : PlanState}
    (h : add_geounits_finish k cat cfg did gids gl keep inc lv fixed1 targetOpt st2 =
      .ok (b, st1)) :
    st1.version = st2.version + 1 := by
  cases targetOpt with
  | some t =>
    rw [add_geounits_finish] at h
    exact add_geounits_finish2_version _ _ _ _ _ _ _ _ _ _ _ _ _ h
  | none =>
    rw [add_geounits_finish] at h
    dsimp only [] at h
    exact (add_geounits_finish2_version _ _ _ _ _ _ _ _ _ _ _ _ _ h).trans rfl
/-- A successful `add_geounits` call that returns `True` (some district
geometry was changed) leaves the plan version at exactly `entry + 1`:
the locked early return yields `False`, and every other success passes
through the finish tail, whose single bump is the only version write. -/
theorem add_geounits_ok_version (k : GeoKernel) (cat : Catalog) (cfg : Settings)
    (st : PlanState) (did : Nat) (gids : List Nat) (gl v : Nat) (ko : Bool)
    {stOut : PlanState}
    (h : add_geounits k cat cfg st did gids gl v ko = .ok (true, stOut)) :
    stOut.version = st.version + 1 := by
  rw [add_geounits] at h
  dsimp only [] at h
  split at h
  · simp at h
  · split at h
    · exact Except.noConfusion h
    · split at h
      · exact Except.noConfusion h
      · rename_i hloop
        have h2 := add_geounits_finish_version _ _ _ _ _ _ _ _ _ _ _ h
        have h3 := addGeounitsLoop_version _ _ _ _ _ _ _ _ _ _ _ _ _ _ hloop
        rw [h2, h3, purge_version]

/-- C1: `Plan.add_geounits` is atomic under `transaction.commit_on_success`
(models.py:795-796): when any step raises (including a kernel
`GEOSException` in steps 3-9) every write is rolled back and the state —
hence `plan.version` — is exactly the entry state; when the call
succeeds with `True` (geometry changed), `plan.version` advances by
exactly 1. -/
theorem C1_add_geounits_atomicity (k : GeoKernel) (cat : Catalog) (cfg : Settings)
    (st : PlanState) (did : Nat) (gids : List Nat) (gl v : Nat) (ko : Bool) :
    (∀ e : KErr, (add_geounits_tx k cat cfg st did gids gl v ko).1 = .error e →
        (add_geounits_tx k cat cfg st did gids gl v ko).2 = st) ∧
    ((add_geounits_tx k cat cfg st did gids gl v ko).1 = .ok true →
        (add_geounits_tx k cat cfg st did gids gl v ko).2.version = st.version + 1) := by
  constructor
  · intro e he
    unfold add_geounits_tx at he ⊢
    cases hres : add_geounits k cat cfg st did gids gl v ko with
    | error p => cases p; rfl
    | ok p =>
      cases p with
      | mk b stOut =>
        rw [hres] at he
        dsimp only [] at he
        exact Except.noConfusion he
  · intro hok
    unfold add_geounits_tx at hok ⊢
    cases hres : add_geounits k cat cfg st did gids gl v ko with
    | error p =>
      cases p with
      | mk e0 stE =>
        rw [hres] at hok
        dsimp only [] at hok
        exact Except.noConfusion hok
    | ok p =>
      cases p with
      | mk b stOut =>
        rw [hres] at hok
        dsimp only [] at hok ⊢
        have hb : b = true := Except.ok.inj hok
        subst hb
        exact add_geounits_ok_version k cat cfg st did gids gl v ko hres

/-- Witness for C1: on `stLocked` with target district 2, the kernel
whose `difference` always raises rolls back to the entry state, and the
atom kernel's successful run advances the version from 0 to 1. -/
theorem C1_add_geounits_atomicity_witness :
    (add_geounits_tx failDiffKernel catW cfgW stLocked 2 [3] 2 0 false).2 = stLocked ∧
    (add_geounits_tx atomKernel catW cfgW stLocked 2 [3] 2 0 false).2.version =
      stLocked.version + 1 :=
  ⟨(C1_add_geounits_atomicity failDiffKernel catW cfgW stLocked 2 [3] 2 0 false).1 KErr.geos rfl,
   (C1_add_geounits_atomicity atomKernel catW cfgW stLocked 2 [3] 2 0 false).2 rfl⟩
/-- The post-purge state at the start of `add_geounits` satisfies the
write invariant: all its rows are original rows at or below the base
version. -/
theorem AddInv_purge_after (st : PlanState) (V : Nat)
    (hpk : (st.districts.map (fun r => r.id)).Nodup) :
    AddInv st V (purge st none (some V)) := by
  constructor
  · intro r hr
    rw [purge_after_districts st V hpk] at hr
    have hm := List.mem_filter.mp hr
    exact Or.inl ⟨hm.1, by simpa using hm.2⟩
  · rw [purge_nextPk]

/-- A successful `add_geounits` either is the untouched locked early
return, or reaches every district row through the base-version purge:
each surviving row is an original row at or below the base version or a
freshly written one. -/
theorem add_geounits_inv (k : GeoKernel) (cat : Catalog) (cfg : Settings)
    (st : PlanState) (did : Nat) (gids : List Nat) (gl V : Nat) (ko : Bool)
    {b : Bool} {st' : PlanState}
    (hpk : (st.districts.map (fun r => r.id)).Nodup)
    (h : add_geounits k cat cfg st did gids gl V ko = .ok (b, st')) :
    st' = st ∨ AddInv st V st' := by
  rw [add_geounits] at h
  dsimp only [] at h
  split at h
  · have hinj := Except.ok.inj h
    exact Or.inl (congrArg Prod.snd hinj).symm
  · split at h
    · exact Except.noConfusion h
    · split at h
      · exact Except.noConfusion h
      · rename_i hloop
        right
        have hinv1 := AddInv_purge_after st V hpk
        have hinv2 := addGeounitsLoop_inv _ _ _ _ _ _ _ _ _ _ _ _ _ _ _ _ hinv1 hloop
        exact add_geounits_finish_inv _ _ _ _ _ _ _ _ _ _ _ hinv2 h

/-- C6: `Plan.purge(after=V)` (models.py:707-758) deletes exactly the
district rows with version strictly greater than `V`, cascading their
comments and tags, and leaves rows at or below `V` untouched; and
`Plan.add_geounits` (models.py:848) invokes this purge with the
caller-supplied base version before writing any new rows, so every
district row of a successful non-trivial call is an original row at or
below the base version or a freshly allocated one. -/
theorem C6_purge_after_base_version (k : GeoKernel) (cat : Catalog) (cfg : Settings)
    (st : PlanState) (did : Nat) (gids : List Nat) (gl V : Nat) (ko : Bool)
    (hpk : (st.districts.map (fun r => r.id)).Nodup) :
    (purge st none (some V)).districts =
      st.districts.filter (fun r => decide (r.version ≤ V)) ∧
    (purge st none (some V)).comments =
      st.comments.filter (fun c =>
        !((st.districts.filter (fun r => decide (V < r.version))).map (fun r => r.id)).contains c) ∧
    (purge st none (some V)).tags =
      st.tags.filter (fun t =>
        !((st.districts.filter (fun r => decide (V < r.version))).map (fun r => r.id)).contains t) ∧
    (∀ (b : Bool) (st' : PlanState),
      add_geounits k cat cfg st did gids gl V ko = .ok (b, st') →
      st' = st ∨
        ∀ r ∈ st'.districts, (r ∈ st.districts ∧ r.version ≤ V) ∨ st.nextPk ≤ r.id) := by
  refine ⟨purge_after_districts st V hpk, (purge_after_cascade st V).1,
    (purge_after_cascade st V).2, ?_⟩
  intro b st' h
  rcases add_geounits_inv k cat cfg st did gids gl V ko hpk h with h1 | h1
  · exact Or.inl h1
  · exact Or.inr h1.1

/-- Witness for C6: on `stHist` (distinct primary keys 1, 2, 3), the
purge with `after=1` keeps exactly the rows at versions 0. -/
theorem C6_purge_after_base_version_witness :
    (stHist.districts.map (fun r => r.id)).Nodup ∧
    (purge stHist none (some 1)).districts =
      stHist.districts.filter (fun r => decide (r.version ≤ 1)) :=
  ⟨by decide,
   (C6_purge_after_base_version atomKernel catW cfgW stHist 2 [3] 2 1 false (by decide)).1⟩
/-- The `union` variable of a descent step of `get_mixed_geounits`
(models.py:460-466): `None` when no units have been collected, else the
collapsed collection of the collected unit geometries. -/
def mixedUnion (units : List GeounitRec) : Option Geom :=
  if units.isEmpty then none
  else some (enforce_multi (some (Geom.geomCollection (some 3785) (units.map unitGeom))) true)

/-- The `intersects` variable of a descent step (models.py:469-472):
the selection, or the selection differenced with the union of the
collected units — the *unguarded* kernel call at models.py:472. -/
def mixedIntersects (k : GeoKernel) (sel : Geom) (units : List GeounitRec) :
    Except KErr Geom :=
  match mixedUnion units with
  | none => .ok sel
  | some u =>
    match k.difference sel u with
    | some d => .ok d
    | none => .error .geos

/-- The `remainder` of a descent step after `enforce_multi`
(models.py:474-498): the guarded kernel calls fall back to
`empty_geom(boundary.srid)` on failure. -/
def mixedRemainder (k : GeoKernel) (inside : Bool) (b sel inter : Geom) : Geom :=
  enforce_multi (some (
    if inside then
      match k.intersection b inter with
      | some r => r
      | none => empty_geom b.srid
    else
      match k.difference sel b with
      | none => empty_geom b.srid
      | some r1 =>
        match k.intersection r1 inter with
        | none => empty_geom b.srid
        | some r => r)) false

/-- The units collected by a descent step (models.py:500-523): nothing
when the remainder is empty, else the units of the level spatially
selected by the remainder. -/
def mixedStepUnits (k : GeoKernel) (cat : Catalog) (inside : Bool) (base level : Nat)
    (b sel inter : Geom) (units : List GeounitRec) : List GeounitRec :=
  if !(mixedRemainder k inside b sel inter).isEmpty then
    units ++ cat.units.filter (fun u =>
      u.geolevel == level &&
      (if level = base then (mixedRemainder k inside b sel inter).atoms.contains u.center
       else stWithin u.atoms (mixedRemainder k inside b sel inter).atoms))
  else units

/-- A descent step of `mixedLoop` is the `intersects` computation
(whose failure propagates) followed by the remainder query. -/
theorem mixedLoop_descent_step (k : GeoKernel) (cat : Catalog) (gids : List Nat)
    (gl : Nat) (inside : Bool) (base level : Nat) (rest : List Nat)
    (b sel : Geom) (units : List GeounitRec)
    (hlevel : ¬ level = gl) :
    mixedLoop k cat gids gl inside base (level :: rest) (some b) (some sel) units true =
      match mixedIntersects k sel units with
      | .error e => .error e
      | .ok inter =>
        mixedLoop k cat gids gl inside base rest (some b) (some sel)
          (mixedStepUnits k cat inside base level b sel inter units) true := by
  rw [mixedLoop, if_neg hlevel, if_pos rfl]
  rfl

/-- `enforce_multi` maps an empty MultiPolygon to itself. -/
theorem enforceMulti_empty_geom (s : Option Int) :
    enforce_multi (some (empty_geom s)) false = empty_geom s := by
  have h := enforceMulti_simple (SGeom.multiPolygon s [])
  simpa [empty_geom, sgPolyComps, SGeom.srid] using h

/-- C5 (amended): when the kernel calls *inside* the `try` blocks of a
descent step fail (models.py:478-496) — the `boundary.intersection`
when `inside`, or the guarded difference/intersection pair otherwise —
the remainder of that step is the empty geometry, no finer-level units
are queried from it, and the loop proceeds with the units collected so
far; in particular, at the last level of the hierarchy the selector
returns them without raising.  (The claim as stated is refuted by the
unguarded `selection.difference(union)` at models.py:472; see the
counterexample.) -/
theorem C5_guarded_kernel_failure_skips_step (k : GeoKernel) (cat : Catalog)
    (gids : List Nat) (gl : Nat) (inside : Bool) (base level : Nat) (rest : List Nat)
    (b sel inter : Geom) (units : List GeounitRec)
    (hlevel : ¬ level = gl)
    (hinter : mixedIntersects k sel units = .ok inter)
    (hfail : (inside = true ∧ k.intersection b inter = none) ∨
             (inside = false ∧ k.difference sel b = none) ∨
             (inside = false ∧ ∃ r1, k.difference sel b = some r1 ∧
                k.intersection r1 inter = none)) :
    mixedLoop k cat gids gl inside base (level :: rest) (some b) (some sel) units true =
      mixedLoop k cat gids gl inside base rest (some b) (some sel) units true ∧
    mixedLoop k cat gids gl inside base [level] (some b) (some sel) units true =
      .ok units := by
  have hrem : mixedRemainder k inside b sel inter = empty_geom b.srid := by
    rcases hfail with ⟨hi, hf⟩ | ⟨hi, hf⟩ | ⟨hi, r1, hf1, hf2⟩ <;> subst hi
    · rw [mixedRemainder, if_pos rfl, hf]
      exact enforceMulti_empty_geom _
    · rw [mixedRemainder, if_neg (by decide), hf]
      exact enforceMulti_empty_geom _
    · rw [mixedRemainder, if_neg (by decide), hf1]
      dsimp only []
      rw [hf2]
      exact enforceMulti_empty_geom _
  have hu : ∀ lv, mixedStepUnits k cat inside base lv b sel inter units = units := by
    intro lv
    rw [mixedStepUnits, hrem]
    simp [empty_geom, Geom.isEmpty, SGeom.isEmpty]
  constructor
  · rw [mixedLoop_descent_step k cat gids gl inside base level rest b sel units hlevel,
      hinter]
    dsimp only []
    rw [hu level]
  · rw [mixedLoop_descent_step k cat gids gl inside base level [] b sel units hlevel,
      hinter]
    dsimp only []
    rw [hu level]
    rfl

/-- C5 counterexample: `selection.difference(union)` (models.py:472) is
*outside* the `try`, so a kernel failure while computing the remainder
inputs of a descent step propagates out of `get_mixed_geounits` instead
of being treated as an empty remainder: with a kernel whose
`difference` raises, the selector raises `GEOSException` after having
collected the county at the primary-search step. -/
theorem C5_unguarded_difference_raises :
    get_mixed_geounits failDiffKernel catW [10] 1 (some (mpoly [[1, 2, 3, 4]])) true =
      .error .geos := rfl

/-- A kernel whose `intersection` always raises `GEOSException`. -/
def failIntKernel : GeoKernel := { atomKernel with intersection := fun _ _ => none }

/-- Witness for C5: with no units collected yet and a kernel whose
guarded `intersection` raises, the single descent step at level 2
returns the collected units (here none) without raising. -/
theorem C5_guarded_kernel_failure_witness :
    mixedLoop failIntKernel catW [10] 1 true 2 [2]
      (some (mpoly [[1, 2]])) (some (mpoly [[3]])) [] true = .ok [] :=
  (C5_guarded_kernel_failure_skips_step failIntKernel catW [10] 1 true 2 2 []
    (mpoly [[1, 2]]) (mpoly [[3]]) (mpoly [[3]]) [] (by decide) rfl
    (Or.inl ⟨rfl, rfl⟩)).2
/-- The spec's reading of the capacity scan: the occupied district
slots are the Unassigned district plus every district with a non-empty
geometry. -/
def occupiedSlotsSpec (rows : List DistrictRow) : Nat :=
  (rows.filter (fun d => d.district_id == 0 || d.geom.any (fun g => !g.isEmpty))).length

/-- On rows where only the Unassigned district may lack a geometry, the
source's capacity scan computes exactly the spec's count. -/
theorem occupiedCount_eq_spec (rows : List DistrictRow)
    (hg : ∀ d ∈ rows, d.district_id = 0 ∨ d.geom ≠ none) :
    occupiedCount rows = .ok (occupiedSlotsSpec rows) := by
  induction rows with
  | nil => rfl
  | cons d rest ih =>
    have hd := hg d (by simp)
    have hrest : ∀ x ∈ rest, x.district_id = 0 ∨ x.geom ≠ none :=
      fun x hx => hg x (by simp [hx])
    have ih2 := ih hrest
    rw [occupiedCount]
    by_cases h0 : d.district_id = 0
    · rw [if_pos (by simpa using h0), ih2]
      simp [occupiedSlotsSpec, h0, Except.map]
    · rw [if_neg (by simpa using h0)]
      rcases hd with hd | hd
      · exact absurd hd h0
      · cases hgeom : d.geom with
        | none => exact absurd hgeom hd
        | some g =>
          dsimp only []
          by_cases hge : g.isEmpty
          · rw [if_neg (by simp [hge]), ih2]
            simp [occupiedSlotsSpec, h0, hgeom, hge]
          · rw [if_pos (by simp [hge]), ih2]
            simp [occupiedSlotsSpec, h0, hgeom, hge, Except.map]

/-- The paste chain never raises the capacity error: its failures wrap
the inner paste errors. -/
theorem pasteDistrictsGo_no_capacity (k : GeoKernel) (cat : Catalog) (version : Nat) :
    ∀ (ds : List (DistrictRow × List CompChar)) (others : Option (List DistrictRow))
      (acc : List Nat) (st st' : PlanState),
      pasteDistrictsGo k cat version ds others acc st ≠ .error (.capacity, st') := by
  intro ds
  induction ds with
  | nil =>
    intro others acc st st' h
    exact Except.noConfusion h
  | cons p rest ih =>
    intro others acc st st' h
    obtain ⟨src, srcComp⟩ := p
    rw [pasteDistrictsGo] at h
    split at h
    · have h1 := Except.error.inj h
      exact PasteErr.noConfusion (congrArg Prod.fst h1)
    · have h1 := Except.error.inj h
      exact PasteErr.noConfusion (congrArg Prod.fst h1)
    · exact ih _ _ _ _ h

/-- C8: `Plan.paste_districts` (models.py:1030-1043) fails with the
capacity error — pasting nothing and returning the entry state, so
`plan.version` is unchanged — exactly when the occupied slots at the
base version (the Unassigned district plus every district with
non-empty geometry) already reach `max_districts + 1`; otherwise the
capacity check passes and the capacity error cannot arise later. -/
theorem C8_paste_capacity (k : GeoKernel) (cat : Catalog) (st : PlanState)
    (districts : List (DistrictRow × List CompChar)) (versionIn : Option Nat)
    (hg : ∀ d ∈ districtsAtVersion st (versionIn.getD st.version),
        d.district_id = 0 ∨ d.geom ≠ none) :
    (paste_districts k cat st districts versionIn = .error (.capacity, st) ↔
      cat.maxDistricts + 1 ≤
        occupiedSlotsSpec (districtsAtVersion st (versionIn.getD st.version))) ∧
    (occupiedSlotsSpec (districtsAtVersion st (versionIn.getD st.version)) <
        cat.maxDistricts + 1 →
      ∀ st', paste_districts k cat st districts versionIn ≠ .error (.capacity, st')) := by
  have hb := occupiedCount_eq_spec _ hg
  have hunf : ∀ (P : Except (PasteErr × PlanState) (List Nat × PlanState) → Prop),
      P (paste_districts k cat st districts versionIn) ↔
      P (if cat.maxDistricts + 1 ≤
            occupiedSlotsSpec (districtsAtVersion st (versionIn.getD st.version)) then
          .error (.capacity, st)
        else
          match pasteDistrictsGo k cat (versionIn.getD st.version) districts none []
              (if versionIn.getD st.version < st.version then
                purge st none (some (versionIn.getD st.version)) else st) with
          | .error e => .error e
          | .ok (pasted_list, st2) =>
            if 0 < pasted_list.length then
              .ok (pasted_list, { st2 with version := versionIn.getD st.version + 1 })
            else .ok (pasted_list, st2)) := by
    intro P
    rw [paste_districts]
    dsimp only []
    rw [hb]
  constructor
  · rw [hunf (fun x => x = .error (.capacity, st))]
    by_cases hle : cat.maxDistricts + 1 ≤
        occupiedSlotsSpec (districtsAtVersion st (versionIn.getD st.version))
    · rw [if_pos hle]
      simp [hle]
    · rw [if_neg hle]
      constructor
      · intro hcontra
        split at hcontra
        · rename_i e he
          obtain ⟨e0, stE⟩ := e
          have h1 := Except.error.inj hcontra
          have h2 : e0 = PasteErr.capacity := congrArg Prod.fst h1
          have h3 : stE = st := congrArg Prod.snd h1
          subst h2; subst h3
          exact absurd he (pasteDistrictsGo_no_capacity _ _ _ _ _ _ _ _)
        · split at hcontra <;> exact Except.noConfusion hcontra
      · intro h; exact absurd h hle
  · intro hlt st'
    rw [hunf (fun x => x ≠ .error (.capacity, st'))]
    rw [if_neg (by omega)]
    intro hcontra
    split at hcontra
    · rename_i e he
      obtain ⟨e0, stE⟩ := e
      have h1 := Except.error.inj hcontra
      have h2 : e0 = PasteErr.capacity := congrArg Prod.fst h1
      subst h2
      exact absurd he (pasteDistrictsGo_no_capacity _ _ _ _ _ _ _ _)
    · split at hcontra <;> exact Except.noConfusion hcontra

/-- Witness state: all three slots of `catW` occupied at version 0 (the
Unassigned district and two districts with non-empty geometry). -/
def stFull : PlanState where
  districts :=
    [ { id := 1, district_id := 0, name := "Unassigned", version := 0, is_locked := false,
        geom := some (mpoly [[4]]), simple := none },
      { id := 2, district_id := 1, name := "District 1", version := 0, is_locked := false,
        geom := some (mpoly [[1, 2]]), simple := none },
      { id := 3, district_id := 2, name := "District 2", version := 0, is_locked := false,
        geom := some (mpoly [[3]]), simple := none } ]
  computed := []
  comments := []
  tags := []
  version := 0
  min_version := 0
  is_valid := true
  nextPk := 4
/-- Witness for C8: on `stFull` all three slots are occupied, so the
paste fails with the capacity error and the untouched entry state; on
`stLocked` only two slots are occupied and the capacity check
passes. -/
theorem C8_paste_capacity_witness :
    paste_districts atomKernel catW stFull [] none = .error (.capacity, stFull) ∧
    ¬ (paste_districts atomKernel catW stLocked [] none = .error (.capacity, stLocked)) := by
  constructor
  · exact (C8_paste_capacity atomKernel catW stFull [] none (by decide)).1.mpr (by decide)
  · intro hc
    exact absurd ((C8_paste_capacity atomKernel catW stLocked [] none (by decide)).1.mp hc)
      (by decide)
/-- C9: on a plan whose fraction of assigned base geounits lies below
`FIX_UNASSIGNED_MIN_PERCENT / 100`, `fix_unassigned` never enters the
adjacency phase — whether district slots are still open (the gate at
models.py:1536-1540 skips adjacency altogether) or all slots are
assigned but the threshold fails (models.py:1551-1561): with
hole-fills found it applies exactly the hole-fill reassignments, and
with none it returns `False` with a message and the untouched
state. -/
theorem C9_below_min_pct_only_hole_fills (k : GeoKernel) (cat : Catalog) (cfg : Settings)
    (st : PlanState) (versionIn : Option Nat) (ud : DistrictRow) (uGeom : Geom)
    (uns : List Nat)
    (hU : st.districts.filter (fun r =>
        r.district_id == 0 && r.version == versionIn.getD st.version) = [ud])
    (hgeom : ud.geom = some uGeom)
    (hfal : uGeom.pyFalsy = false) (hemp : uGeom.isEmpty = false)
    (hUns : getUnassignedGeounits cat st (some (versionIn.getD st.version)) = .ok uns)
    (hBelow : 1 - (uns.length : Rat) /
        ((cat.units.filter (fun u => u.geolevel == cat.levels.getLastD 0)).length : Rat) <
        (cfg.fix_unassigned_min_percent : Rat) / 100) :
    (holeFillAdds k cat (cat.levels.getLastD 0) (geomPolys uGeom)
        (fixDistricts st (versionIn.getD st.version)) = [] →
      ∃ m, fix_unassigned k cat cfg st versionIn = .ok ((false, m), st)) ∧
    (holeFillAdds k cat (cat.levels.getLastD 0) (geomPolys uGeom)
        (fixDistricts st (versionIn.getD st.version)) ≠ [] →
      ∃ n, fix_unassigned k cat cfg st versionIn =
        applyAdds k cat cfg (cat.levels.getLastD 0) (versionIn.getD st.version)
          (holeFillAdds k cat (cat.levels.getLastD 0) (geomPolys uGeom)
            (fixDistricts st (versionIn.getD st.version)))
          n st) := by
  unfold fix_unassigned
  dsimp only []
  rw [hU]
  try dsimp only []
  rw [hgeom]
  dsimp only [optFalsy]
  rw [hfal, hemp]
  rw [if_neg (by simp)]
  try dsimp only []
  by_cases hAll : (districtsAtVersion st (versionIn.getD st.version)).length - 1 <
      cat.maxDistricts
  · rw [decide_eq_true hAll]
    constructor
    · intro hta
      rw [hta]
      rw [if_pos (by rfl)]
      try dsimp only []
      exact ⟨_, rfl⟩
    · intro hta
      have hne : (holeFillAdds k cat (cat.levels.getLastD 0) (geomPolys uGeom)
          (fixDistricts st (versionIn.getD st.version))).isEmpty = false := by
        cases hl : holeFillAdds k cat (cat.levels.getLastD 0) (geomPolys uGeom)
            (fixDistricts st (versionIn.getD st.version)) with
        | nil => exact absurd hl hta
        | cons a l => rfl
      rw [hne]
      rw [if_neg (by simp)]
      rw [if_pos hAll]
      try dsimp only []
      rw [if_pos (show _ = true by rw [hne]; rfl)]
      exact ⟨0, rfl⟩
  · rw [decide_eq_false hAll]
    rw [hUns]
    try dsimp only []
    rw [decide_eq_true hBelow]
    constructor
    · intro hta
      rw [hta]
      rw [if_neg (by simp)]
      rw [if_neg hAll]
      rw [if_pos (by rfl)]
      try dsimp only []
      exact ⟨_, rfl⟩
    · intro hta
      have hne : (holeFillAdds k cat (cat.levels.getLastD 0) (geomPolys uGeom)
          (fixDistricts st (versionIn.getD st.version))).isEmpty = false := by
        cases hl : holeFillAdds k cat (cat.levels.getLastD 0) (geomPolys uGeom)
            (fixDistricts st (versionIn.getD st.version)) with
        | nil => exact absurd hl hta
        | cons a l => rfl
      rw [hne]
      rw [if_neg (by simp)]
      rw [if_neg hAll]
      rw [if_neg (by simp)]
      rw [if_neg (by simp)]
      try dsimp only []
      rw [if_pos (show _ = true by rw [hne]; rfl)]
      exact ⟨uns.length, rfl⟩
/-- Witness settings: a high fix-unassigned threshold. -/
def cfgHigh : Settings where
  max_undos_during_edit := 0
  fix_unassigned_min_percent := 90
  fix_unassigned_comparator_subject := 0

/-- Witness for C9: on `stFull` (all slots assigned, one of four base
units unassigned — 75% assigned, below the 90% threshold) and on
`stLocked` (an open district slot, half the base units unassigned),
no hole-fills are available and `fix_unassigned` returns `False` with
a message and the untouched state. -/
theorem C9_below_min_pct_witness :
    (∃ m, fix_unassigned atomKernel catW cfgHigh stFull (some 0) =
      .ok ((false, m), stFull)) ∧
    (∃ m, fix_unassigned atomKernel catW cfgHigh stLocked (some 0) =
      .ok ((false, m), stLocked)) :=
  ⟨(C9_below_min_pct_only_hole_fills atomKernel catW cfgHigh stFull (some 0)
    { id := 1, district_id := 0, name := "Unassigned", version := 0, is_locked := false,
      geom := some (mpoly [[4]]), simple := none }
    (mpoly [[4]]) [4]
    (by decide) (by rfl) (by rfl) (by rfl) (by rfl)
    (by
      have h4 : (List.filter (fun u => u.geolevel == catW.levels.getLastD 0) catW.units).length = 4 := rfl
      have h1 : ([4] : List Nat).length = 1 := rfl
      have h9 : cfgHigh.fix_unassigned_min_percent = 90 := rfl
      rw [h4, h1, h9]
      norm_num)).1 (by rfl),
   (C9_below_min_pct_only_hole_fills atomKernel catW cfgHigh stLocked (some 0)
    { id := 1, district_id := 0, name := "Unassigned", version := 0, is_locked := false,
      geom := some (mpoly [[3, 4]]), simple := some (mpoly [[3, 4]]) }
    (mpoly [[3, 4]]) [3, 4]
    (by decide) (by rfl) (by rfl) (by rfl) (by rfl)
    (by
      have h4 : (List.filter (fun u => u.geolevel == catW.levels.getLastD 0) catW.units).length = 4 := rfl
      have h1 : ([3, 4] : List Nat).length = 2 := rfl
      have h9 : cfgHigh.fix_unassigned_min_percent = 90 := rfl
      rw [h4, h1, h9]
      norm_num)).1 (by rfl)⟩
/-- Counterexample catalog for the delta-stats ordering: subject 2's
percentage denominator is subject 1, whose own denominator is subject
0; the denominator sort keys order subject 2 (key of subject 1: 5)
before subject 1 (key of subject 0: 1) under the descending order. -/
def catC3 : Catalog where
  units := [ { id := 1, geolevel := 2, atoms := [1], center := 1, child := none } ]
  subjects :=
    [ { id := 0, sortKey := 1, percentage_denominator := none },
      { id := 1, sortKey := 5, percentage_denominator := some 0 },
      { id := 2, sortKey := 9, percentage_denominator := some 1 } ]
  characteristics := [(1, 0, 0), (1, 1, 4), (1, 2, 2)]
  levels := [2]
  maxDistricts := 2
  member := "District "

/-- The single geounit of `catC3`. -/
def unitC3 : GeounitRec := { id := 1, geolevel := 2, atoms := [1], center := 1, child := none }

/-- Initial computed characteristics of district row 7 for `catC3`. -/
def compC3 : List CompChar :=
  [ { district := 7, subject := 0, number := 10, percentage := none },
    { district := 7, subject := 1, number := 4, percentage := none },
    { district := 7, subject := 2, number := 2, percentage := none } ]

/-- C3 counterexample: on `catC3` the iteration order is [0, 2, 1],
although subject 1 serves as the percentage denominator of subject 2 —
the denominator is processed *after* its referencer; consequently the
percentage stored for subject 2 reads the stale denominator (4, not
the updated 8): it is 1 rather than 4/8. -/
theorem C3_stale_denominator_counterexample :
    (orderedSubjects catC3).map (fun s => s.id) = [0, 2, 1] ∧
    (catC3.subjects.map (fun s => (s.id, s.percentage_denominator))) =
      [(0, none), (1, some 0), (2, some 1)] ∧
    ∃ comp, delta_stats catC3 7 [unitC3] true compC3 = .ok (true, comp) ∧
      findComputed comp 7 2 =
        some { district := 7, subject := 2, number := 4, percentage := some 1 } ∧
      findComputed comp 7 1 =
        some { district := 7, subject := 1, number := 8, percentage := some (4 / 5) } ∧
      ¬ ((1 : Rat) = 4 / 8) :=
  ⟨rfl, rfl,
   [ { district := 7, subject := 0, number := 10, percentage := none },
     { district := 7, subject := 1, number := 8, percentage := some (4 / 5) },
     { district := 7, subject := 2, number := 4, percentage := some 1 } ],
   by with_unfolding_all rfl, by with_unfolding_all decide,
   by with_unfolding_all decide, by norm_num⟩

/-- The `'-percentage_denominator'` order is total. -/
theorem deltaOrder_total (cat : Catalog) (a b : SubjectRec) :
    deltaOrderBefore cat a b = true ∨ deltaOrderBefore cat b a = true := by
  unfold deltaOrderBefore
  cases denomOrderKey cat a with
  | none => left; rfl
  | some x =>
    cases denomOrderKey cat b with
    | none => right; rfl
    | some y => simp; omega

/-- The `'-percentage_denominator'` order is transitive. -/
theorem deltaOrder_trans (cat : Catalog) (a b c : SubjectRec)
    (h1 : deltaOrderBefore cat a b = true) (h2 : deltaOrderBefore cat b c = true) :
    deltaOrderBefore cat a c = true := by
  unfold deltaOrderBefore at h1 h2 ⊢
  cases ha : denomOrderKey cat a with
  | none => rfl
  | some x =>
    rw [ha] at h1
    cases hb : denomOrderKey cat b with
    | none => rw [hb] at h1; exact Bool.noConfusion h1
    | some y =>
      rw [hb] at h1 h2
      cases hc : denomOrderKey cat c with
      | none => rw [hc] at h2; exact Bool.noConfusion h2
      | some z =>
        rw [hc] at h2
        simp at h1 h2 ⊢
        omega

/-- The subject iteration order of `delta_stats` is sorted by the
`'-percentage_denominator'` order. -/
theorem orderedSubjects_sorted (cat : Catalog) :
    List.Pairwise (fun a b => deltaOrderBefore cat a b = true) (orderedSubjects cat) := by
  haveI : IsTotal SubjectRec (fun a b => deltaOrderBefore cat a b = true) :=
    ⟨deltaOrder_total cat⟩
  haveI : IsTrans SubjectRec (fun a b => deltaOrderBefore cat a b = true) :=
    ⟨deltaOrder_trans cat⟩
  exact List.sorted_insertionSort _ _

/-- Membership in the iteration order is membership in the catalog. -/
theorem mem_orderedSubjects {cat : Catalog} {s : SubjectRec} :
    s ∈ orderedSubjects cat ↔ s ∈ cat.subjects :=
  (List.perm_insertionSort _ _).mem_iff

/-- Under a one-level denominator schema (no denominator-serving
subject has a denominator of its own) and distinct subject ids, the
iteration order of `delta_stats` processes every denominator before
every subject referencing it. -/
theorem orderedSubjects_denom_first (cat : Catalog)
    (hids : (cat.subjects.map (fun s => s.id)).Nodup)
    (hOne : ∀ t ∈ cat.subjects, ∀ did, t.percentage_denominator = some did →
        ∀ u ∈ cat.subjects, u.id = did → u.percentage_denominator = none) :
    List.Pairwise (fun a b => ¬ a.percentage_denominator = some b.id)
      (orderedSubjects cat) := by
  refine (orderedSubjects_sorted cat).imp_of_mem ?_
  intro a b ha hb hr hab
  have ha' : a ∈ cat.subjects := mem_orderedSubjects.mp ha
  have hb' : b ∈ cat.subjects := mem_orderedSubjects.mp hb
  have hbnone : b.percentage_denominator = none := hOne a ha' b.id hab b hb' rfl
  have hkb : denomOrderKey cat b = none := by simp [denomOrderKey, hbnone]
  have hka : denomOrderKey cat a = some b.sortKey := by
    cases hf : cat.subjects.find? (fun t => t.id == b.id) with
    | none =>
      have := List.find?_eq_none.mp hf b hb'
      simp at this
    | some u =>
      have hu : u.id = b.id := by simpa using List.find?_some hf
      have humem : u ∈ cat.subjects := List.mem_of_find?_eq_some hf
      have hub : u = b := List.inj_on_of_nodup_map hids humem hb' hu
      subst hub
      simp [denomOrderKey, hab, hf]
  rw [deltaOrderBefore, hka, hkb] at hr
  exact Bool.noConfusion hr
/-- Replacing every row matching `p` by a `p`-matching row `c` makes
`c` the first `p`-match, provided there was one. -/
theorem find_map_replace {α : Type} (p : α → Bool) (c : α) (hp : p c = true) :
    ∀ l : List α, (l.find? p).isSome = true →
      (l.map (fun d => if p d then c else d)).find? p = some c := by
  intro l
  induction l with
  | nil => intro h; simp at h
  | cons d rest ih =>
    intro h
    by_cases hd : p d = true
    · rw [List.map_cons, if_pos hd]
      exact List.find?_cons_of_pos _ hp
    · have h2 : (rest.find? p).isSome = true := by
        rwa [List.find?_cons_of_neg _ hd] at h
      rw [List.map_cons, if_neg hd, List.find?_cons_of_neg _ hd]
      exact ih h2

/-- Appending a `p`-matching row to a list with no `p`-match makes it
the first `p`-match. -/
theorem find_append_single {α : Type} (p : α → Bool) (c : α) (hp : p c = true) :
    ∀ l : List α, l.find? p = none → (l ++ [c]).find? p = some c := by
  intro l
  induction l with
  | nil => intro _; exact List.find?_cons_of_pos _ hp
  | cons d rest ih =>
    intro h
    have hd : ¬ p d = true := by
      intro hpd
      rw [List.find?_cons_of_pos _ hpd] at h
      exact Option.noConfusion h
    rw [List.find?_cons_of_neg _ hd] at h
    rw [List.cons_append, List.find?_cons_of_neg _ hd]
    exact ih h

/-- Replacing `p`-matching rows by a row that does not match `q` leaves
the first `q`-match unchanged, when `p`-rows never match `q`. -/
theorem find_map_replace_other {α : Type} (p q : α → Bool) (c : α) (hq : q c = false)
    (himp : ∀ d, p d = true → q d = false) :
    ∀ l : List α, (l.map (fun d => if p d then c else d)).find? q = l.find? q := by
  intro l
  induction l with
  | nil => rfl
  | cons d rest ih =>
    by_cases hd : p d = true
    · rw [List.map_cons, if_pos hd]
      rw [List.find?_cons_of_neg _ (by simp [hq]), List.find?_cons_of_neg _ (by simp [himp d hd])]
      exact ih
    · rw [List.map_cons, if_neg hd]
      by_cases hqd : q d = true
      · rw [List.find?_cons_of_pos _ hqd, List.find?_cons_of_pos _ hqd]
      · rw [List.find?_cons_of_neg _ hqd, List.find?_cons_of_neg _ hqd]
        exact ih

/-- Appending a row that does not match `q` leaves the first `q`-match
unchanged. -/
theorem find_append_single_other {α : Type} (q : α → Bool) (c : α) (hq : q c = false) :
    ∀ l : List α, (l ++ [c]).find? q = l.find? q := by
  intro l
  induction l with
  | nil => simp [List.find?, hq]
  | cons d rest ih =>
    by_cases hd : q d = true
    · rw [List.cons_append, List.find?_cons_of_pos _ hd, List.find?_cons_of_pos _ hd]
    · rw [List.cons_append, List.find?_cons_of_neg _ hd, List.find?_cons_of_neg _ hd]
      exact ih

/-- A found computed row carries the looked-up subject and district. -/
theorem findComputed_subject {comp : List CompChar} {dpk subj : Nat} {c : CompChar}
    (h : findComputed comp dpk subj = some c) : c.subject = subj ∧ c.district = dpk := by
  have h2 := List.find?_some h
  simpa using h2

/-- After `computed.save()`, the saved row is the one read back for its
subject and district. -/
theorem findComputed_upsert_self (comp : List CompChar) (c : CompChar) :
    findComputed (upsertComputed comp c) c.district c.subject = some c := by
  have hp : (fun x : CompChar => x.subject == c.subject && x.district == c.district) c = true := by
    simp
  unfold upsertComputed
  by_cases h : (findComputed comp c.district c.subject).isSome = true
  · rw [if_pos h]
    exact find_map_replace _ c hp comp h
  · rw [if_neg h]
    exact find_append_single _ c hp comp (Option.not_isSome_iff_eq_none.mp h)

/-- `computed.save()` does not touch the rows of other subjects. -/
theorem findComputed_upsert_other (comp : List CompChar) (c : CompChar) (subj : Nat)
    (hne : ¬ subj = c.subject) (dpk' : Nat) :
    findComputed (upsertComputed comp c) dpk' subj = findComputed comp dpk' subj := by
  have hq : (fun x : CompChar => x.subject == subj && x.district == dpk') c = false := by
    simp
    intro h
    exact absurd h.symm hne
  have himp : ∀ d : CompChar,
      (fun x : CompChar => x.subject == c.subject && x.district == c.district) d = true →
      (fun x : CompChar => x.subject == subj && x.district == dpk') d = false := by
    intro d hd
    simp at hd ⊢
    intro h2
    exact absurd (h2 ▸ hd.1.symm).symm hne
  unfold upsertComputed
  by_cases h : (findComputed comp c.district c.subject).isSome = true
  · rw [if_pos h]
    exact find_map_replace_other _ _ c hq himp comp
  · rw [if_neg h]
    exact find_append_single_other _ c hq comp
/-- The updated row of one subject keeps the subject and district. -/
theorem deltaRow_subject (comp : List CompChar) (dpk : Nat) (combine : Bool) (sid : Nat)
    (a : Rat) :
    (deltaRow comp dpk combine sid a).subject = sid ∧
    (deltaRow comp dpk combine sid a).district = dpk := by
  unfold deltaRow
  cases hf : findComputed comp dpk sid with
  | none => exact ⟨rfl, rfl⟩
  | some c => exact ⟨(findComputed_subject hf).1, (findComputed_subject hf).2⟩

/-- The percentage update keeps the subject and district. -/
theorem deltaPct_subject (c1 denom : CompChar) :
    (deltaPct c1 denom).subject = c1.subject ∧
    (deltaPct c1 denom).district = c1.district := by
  unfold deltaPct
  split <;> exact ⟨rfl, rfl⟩

/-- The stored percentage of the percentage update is its own number
over the denominator's number (read at update time), or 0 for a
non-positive denominator. -/
theorem deltaPct_pct (c1 denom : CompChar) :
    (deltaPct c1 denom).percentage =
      some (if 0 < denom.number then (deltaPct c1 denom).number / denom.number else 0) := by
  unfold deltaPct
  by_cases h : 0 < denom.number
  · rw [if_pos h, if_pos h]
  · rw [if_neg h, if_neg h]

/-- Rows of subjects outside the processed list are untouched by the
`delta_stats` loop. -/
theorem deltaStatsGo_stable (cat : Catalog) (dpk : Nat) (unitIds : List Nat) (combine : Bool) :
    ∀ (subs : List SubjectRec) (changed : Bool) (comp : List CompChar) (b : Bool)
      (comp' : List CompChar),
      deltaStatsGo cat dpk unitIds combine subs changed comp = .ok (b, comp') →
      ∀ subj, (∀ t ∈ subs, ¬ t.id = subj) → ∀ dpk',
        findComputed comp' dpk' subj = findComputed comp dpk' subj := by
  intro subs
  induction subs with
  | nil =>
    intro changed comp b comp' h subj hns dpk'
    cases h
    rfl
  | cons s rest ih =>
    intro changed comp b comp' h subj hns dpk'
    have hs : ¬ s.id = subj := hns s (by simp)
    have hrest : ∀ t ∈ rest, ¬ t.id = subj := fun t ht => hns t (by simp [ht])
    rw [deltaStatsGo] at h
    split at h
    · exact ih _ _ _ _ h subj hrest dpk'
    · rename_i a hagg
      dsimp only [] at h
      split at h
      · rw [ih _ _ _ _ h subj hrest dpk']
        refine findComputed_upsert_other comp _ subj ?_ dpk'
        rw [(deltaRow_subject comp dpk combine s.id a).1]
        exact fun hh => hs hh.symm
      · split at h
        · exact Except.noConfusion h
        · rename_i did hdid denom heqd
          rw [ih _ _ _ _ h subj hrest dpk']
          refine findComputed_upsert_other comp _ subj ?_ dpk'
          rw [(deltaPct_subject _ denom).1, (deltaRow_subject comp dpk combine s.id a).1]
          exact fun hh => hs hh.symm
/-- Over a subject list with distinct ids in which no earlier subject
references a later subject as denominator, every processed percentage
subject ends with `percentage = number / denominator.number` computed
from the rows as they stand at the end of the loop — i.e. from the
already-updated denominator. -/
theorem deltaStatsGo_pct (cat : Catalog) (dpk : Nat) (unitIds : List Nat) (combine : Bool) :
    ∀ (subs : List SubjectRec) (changed : Bool) (comp : List CompChar) (b : Bool)
      (comp' : List CompChar),
      (subs.map (fun t => t.id)).Nodup →
      List.Pairwise (fun x y => ¬ x.percentage_denominator = some y.id) subs →
      deltaStatsGo cat dpk unitIds combine subs changed comp = .ok (b, comp') →
      ∀ s ∈ subs, ∀ did, s.percentage_denominator = some did → ¬ did = s.id →
        ∀ a, aggregateFor cat unitIds s.id = some a →
        ∃ cs cd, findComputed comp' dpk s.id = some cs ∧
          findComputed comp' dpk did = some cd ∧
          cs.percentage = some (if 0 < cd.number then cs.number / cd.number else 0) := by
  intro subs
  induction subs with
  | nil =>
    intro _ _ _ _ _ _ _ s hs
    exact absurd hs (List.not_mem_nil s)
  | cons t rest ih =>
    intro changed comp b comp' hnd hpw h s hmem did hdid hne a hagg
    rw [deltaStatsGo] at h
    rcases List.mem_cons.mp hmem with hst | hsrest
    · subst hst
      rw [hagg] at h
      dsimp only [] at h
      rw [hdid] at h
      dsimp only [] at h
      split at h
      · exact Except.noConfusion h
      · rename_i denom heqd
        have hrs : ∀ u ∈ rest, ¬ u.id = s.id := by
          rw [List.map_cons, List.nodup_cons] at hnd
          intro u hu hcontra
          exact hnd.1 (List.mem_map.mpr ⟨u, hu, hcontra⟩)
        have hrd : ∀ u ∈ rest, ¬ u.id = did := by
          intro u hu hcontra
          have hhead := (List.pairwise_cons.mp hpw).1 u hu
          rw [hdid, hcontra] at hhead
          exact hhead rfl
        have hCs : (deltaPct (deltaRow comp dpk combine s.id a) denom).subject = s.id := by
          rw [(deltaPct_subject _ denom).1, (deltaRow_subject comp dpk combine s.id a).1]
        have hCd : (deltaPct (deltaRow comp dpk combine s.id a) denom).district = dpk := by
          rw [(deltaPct_subject _ denom).2, (deltaRow_subject comp dpk combine s.id a).2]
        have h1 : findComputed
            (upsertComputed comp (deltaPct (deltaRow comp dpk combine s.id a) denom))
            dpk s.id = some (deltaPct (deltaRow comp dpk combine s.id a) denom) := by
          have h0 := findComputed_upsert_self comp
            (deltaPct (deltaRow comp dpk combine s.id a) denom)
          rw [hCs, hCd] at h0
          exact h0
        have h2 : findComputed
            (upsertComputed comp (deltaPct (deltaRow comp dpk combine s.id a) denom))
            dpk did = some denom := by
          rw [findComputed_upsert_other comp _ did (by rw [hCs]; exact hne) dpk]
          exact heqd
        have hsT := deltaStatsGo_stable cat dpk unitIds combine rest true _ b comp' h
          s.id hrs dpk
        have hsD := deltaStatsGo_stable cat dpk unitIds combine rest true _ b comp' h
          did hrd dpk
        refine ⟨deltaPct (deltaRow comp dpk combine s.id a) denom, denom, ?_, ?_, ?_⟩
        · rw [hsT]
          exact h1
        · rw [hsD]
          exact h2
        · exact deltaPct_pct _ denom
    · have hnd' : (rest.map (fun t => t.id)).Nodup := by
        rw [List.map_cons, List.nodup_cons] at hnd
        exact hnd.2
      have hpw' := (List.pairwise_cons.mp hpw).2
      split at h
      · exact ih _ _ _ _ hnd' hpw' h s hsrest did hdid hne a hagg
      · dsimp only [] at h
        split at h
        · exact ih _ _ _ _ hnd' hpw' h s hsrest did hdid hne a hagg
        · split at h
          · exact Except.noConfusion h
          · exact ih _ _ _ _ hnd' hpw' h s hsrest did hdid hne a hagg
/-- C3 (amended): under the one-level denominator schema (no
denominator-serving subject has a denominator of its own) and distinct
subject ids, `District.delta_stats` iterates the subjects with every
denominator before every subject referencing it, and on success every
processed percentage subject ends with `percentage = number /
denominator.number` computed from the final — already updated — rows.
(Without the one-level hypothesis the claim is false: see the
counterexample, where a denominator is processed after its referencer
and the stored percentage reads the stale denominator.) -/
theorem C3_denominators_first_updated_percentage (cat : Catalog) (dpk : Nat)
    (geounits : List GeounitRec) (combine : Bool) (comp : List CompChar)
    (b : Bool) (comp' : List CompChar)
    (hids : (cat.subjects.map (fun s => s.id)).Nodup)
    (hOne : ∀ t ∈ cat.subjects, ∀ did, t.percentage_denominator = some did →
        ∀ u ∈ cat.subjects, u.id = did → u.percentage_denominator = none)
    (hrun : delta_stats cat dpk geounits combine comp = .ok (b, comp')) :
    List.Pairwise (fun a b => ¬ a.percentage_denominator = some b.id)
      (orderedSubjects cat) ∧
    (∀ s ∈ orderedSubjects cat, ∀ did, s.percentage_denominator = some did →
      ∀ a, aggregateFor cat (geounits.map (fun u => u.id)) s.id = some a →
      ∃ cs cd, findComputed comp' dpk s.id = some cs ∧
        findComputed comp' dpk did = some cd ∧
        cs.percentage = some (if 0 < cd.number then cs.number / cd.number else 0)) := by
  have hA := orderedSubjects_denom_first cat hids hOne
  refine ⟨hA, ?_⟩
  intro s hmem did hdid a hagg
  have hmem' : s ∈ cat.subjects := mem_orderedSubjects.mp hmem
  have hne : ¬ did = s.id := by
    intro hdd
    have hnone := hOne s hmem' did hdid s hmem' hdd.symm
    rw [hnone] at hdid
    exact Option.noConfusion hdid
  have hnd : ((orderedSubjects cat).map (fun t => t.id)).Nodup :=
    (((List.perm_insertionSort _ cat.subjects).map (fun t => t.id)).nodup_iff).mpr hids
  have hrun2 : deltaStatsGo cat dpk (geounits.map (fun u => u.id)) combine
      (orderedSubjects cat) false comp = .ok (b, comp') := hrun
  exact deltaStatsGo_pct cat dpk (geounits.map (fun u => u.id)) combine
    (orderedSubjects cat) false comp b comp' hnd hA hrun2 s hmem did hdid hne a hagg
/-- Witness catalog for the one-level schema: subject 1's percentage
denominator is subject 0, which has none of its own. -/
def catC3W : Catalog where
  units := [ { id := 1, geolevel := 2, atoms := [1], center := 1, child := none } ]
  subjects :=
    [ { id := 0, sortKey := 1, percentage_denominator := none },
      { id := 1, sortKey := 5, percentage_denominator := some 0 } ]
  characteristics := [(1, 0, 4), (1, 1, 2)]
  levels := [2]
  maxDistricts := 2
  member := "District "

/-- Initial computed characteristics of district row 7 for `catC3W`. -/
def compW3 : List CompChar :=
  [ { district := 7, subject := 0, number := 4, percentage := none },
    { district := 7, subject := 1, number := 2, percentage := none } ]

/-- The computed characteristics after the witness `delta_stats` run:
the denominator subject 0 is updated to 8 first, and subject 1's
percentage 4/8 is computed from that updated value. -/
def compOutC3W : List CompChar :=
  [ { district := 7, subject := 0, number := 8, percentage := none },
    { district := 7, subject := 1, number := 4, percentage := some (1 / 2) } ]

/-- Witness for C3: on the one-level catalog the iteration order puts
the denominator first and the stored percentage of subject 1 reads the
updated denominator. -/
theorem C3_denominators_first_witness :
    List.Pairwise (fun a b => ¬ a.percentage_denominator = some b.id)
      (orderedSubjects catC3W) ∧
    (∃ cs cd, findComputed compOutC3W 7 1 = some cs ∧
      findComputed compOutC3W 7 0 = some cd ∧
      cs.percentage = some (if 0 < cd.number then cs.number / cd.number else 0)) := by
  have h := C3_denominators_first_updated_percentage catC3W 7 [unitC3] true compW3
    true compOutC3W (by decide) (by decide) (by with_unfolding_all rfl)
  exact ⟨h.1,
    h.2 { id := 1, sortKey := 5, percentage_denominator := some 0 } (by decide) 0 rfl
      2 (by with_unfolding_all rfl)⟩
